import Mathlib

/-!
# Insights proxy integration

A shallow embedding of the runtimes-inventory operator's Insights integration:

* `internal/common/constants.go`: the fixed resource names and environment keys;
* `internal/controller/insights_controller.go`: `NewInsightsReconciler` and the three
  watch predicates with their canonical reconcile request;
* `pkg/insights/setup.go`: `Setup` with `isInsightsEnabled`, `createInsightsController`,
  `createConfigMap`, `deleteConfigMap` and `getProxyURL`.

Go strings are embedded as `String`, a Go `nil` slice as `[]`, a `(value, error)` pair
either as `Except` or as a pair of options.

The manager's collaborators (API reader, client, controller builder, owner-reference
helper, logger) are outside the repository. They are embedded as explicit state, `World`:
the objects of the cluster store, the controllers registered with the manager, the
collaborator calls made so far and the log. Each collaborator call of a `Setup`
invocation is answered from the store unless `Faults` injects a failure for it, which
stands for every error that does not come from the content of the store.
-/

set_option autoImplicit false

namespace Insights

/-! ## Constants (`internal/common/constants.go`) -/

def InsightsConfigMapName : String := "insights-proxy"
def ProxyDeploymentName : String := InsightsConfigMapName
def ProxyServiceName : String := ProxyDeploymentName
def ProxyServicePort : Nat := 8080
def ProxySecretName : String := "apicastconf"
def EnvInsightsBackendDomain : String := "INSIGHTS_BACKEND_DOMAIN"
def EnvInsightsProxyDomain : String := "INSIGHTS_PROXY_DOMAIN"
def EnvInsightsEnabled : String := "INSIGHTS_ENABLED"
def EnvTestPullSecretName : String := "INSIGHTS_TEST_PULL_SECRET_NAME"
def EnvInsightsProxyImageTag : String := "RELATED_IMAGE_INSIGHTS_PROXY"

/-! ## Kubernetes objects, requests and errors -/

/-- Owner reference of an object (`metav1.OwnerReference`). -/
structure OwnerReference where
  APIVersion : String
  Kind : String
  Name : String
  UID : String
  Controller : Bool
  BlockOwnerDeletion : Bool
deriving DecidableEq, Repr

/-- Namespaced object as seen through `client.Object`: its kind, its metadata, and the
data of a ConfigMap. -/
structure Object where
  Kind : String
  Namespace : String
  Name : String
  UID : String := ""
  Labels : List (String × String) := []
  Annotations : List (String × String) := []
  Data : List (String × String) := []
  OwnerReferences : List OwnerReference := []
deriving DecidableEq, Repr

def Object.GetNamespace (o : Object) : String := o.Namespace

def Object.GetName (o : Object) : String := o.Name

/-- Reconcile request (`reconcile.Request`, a `types.NamespacedName`). -/
structure Request where
  Namespace : String
  Name : String
deriving DecidableEq, Repr

/-- Go `error` values met by the integration: a plain `errors.New` error, or an API
status error carrying the `Reason` and the HTTP `Code` of its `metav1.Status`. -/
inductive Error where
  | plain (msg : String)
  | status (reason : String) (code : Nat) (msg : String)
deriving DecidableEq, Repr

/-- The status reasons listed in `knownReasons` of apimachinery's `api/errors`; the
unknown reason, the empty string, is not among them. -/
def knownReasons : List String :=
  ["Unauthorized", "Forbidden", "NotFound", "AlreadyExists", "Conflict", "Gone", "Invalid",
   "ServerTimeout", "Timeout", "TooManyRequests", "BadRequest", "MethodNotAllowed",
   "NotAcceptable", "RequestEntityTooLarge", "UnsupportedMediaType", "InternalError",
   "Expired", "ServiceUnavailable"]

/-- The helper `reasonAndCodeForError`: reason and code of a status error, the unknown
reason and code 0 for any other error. -/
def reasonAndCodeForError : Error → String × Nat
  | .status reason code _ => (reason, code)
  | .plain _ => ("", 0)

/-- The helper `ReasonForError`. -/
def ReasonForError (err : Error) : String := (reasonAndCodeForError err).1

/-- The API predicate `apierrors.IsAlreadyExists`: the reason is AlreadyExists. -/
def IsAlreadyExists (err : Error) : Bool :=
  ReasonForError err == "AlreadyExists"

/-- The API predicate `apierrors.IsNotFound`: the reason is NotFound, or the reason is
not a known one and the code is 404. -/
def IsNotFound (err : Error) : Bool :=
  let rc := reasonAndCodeForError err
  if rc.1 == "NotFound" then true
  else if !knownReasons.contains rc.1 && rc.2 == 404 then true
  else false

/-- The helper `client.IgnoreAlreadyExists`: `nil` for an already-exists error, the
error itself otherwise. -/
def IgnoreAlreadyExists : Option Error → Option Error
  | some e => if IsAlreadyExists e then none else some e
  | none => none

/-- The helper `client.IgnoreNotFound`: `nil` for a not-found error, the error itself
otherwise. -/
def IgnoreNotFound : Option Error → Option Error
  | some e => if IsNotFound e then none else some e
  | none => none

/-! ## The reconciler (`internal/controller/insights_controller.go`) -/

/-- Configuration of the reconciler; `GetEnv` is the embedded `common.OSUtils`. -/
structure InsightsReconcilerConfig where
  Namespace : String
  UserAgentPrefix : String
  GetEnv : String → String

/-- The reconciler: its configuration and the four values read from the environment. -/
structure InsightsReconciler where
  config : InsightsReconcilerConfig
  backendDomain : String
  proxyDomain : String
  proxyImageTag : String
  testPullSecretName : String

/-- The promoted field `r.Namespace` of the embedded configuration. -/
def InsightsReconciler.Namespace (r : InsightsReconciler) : String := r.config.Namespace

/-- Creates an `InsightsReconciler` from the configuration, failing when the backend
domain or the proxy image tag is missing from the environment. -/
def NewInsightsReconciler (config : InsightsReconcilerConfig) : Except Error InsightsReconciler :=
  let backendDomain := config.GetEnv EnvInsightsBackendDomain
  if backendDomain.length = 0 then
    .error (.plain "no backend domain provided for Insights")
  else
    let imageTag := config.GetEnv EnvInsightsProxyImageTag
    if imageTag.length = 0 then
      .error (.plain "no proxy image tag provided for Insights")
    else
      let proxyDomain := config.GetEnv EnvInsightsProxyDomain
      let testPullSecret := config.GetEnv EnvTestPullSecretName
      .ok { config := config
            backendDomain := backendDomain
            proxyDomain := proxyDomain
            proxyImageTag := imageTag
            testPullSecretName := testPullSecret }

def InsightsReconciler.proxyDeploymentRequest (r : InsightsReconciler) : List Request :=
  let req : Request := { Namespace := r.Namespace, Name := ProxyDeploymentName }
  [req]

def InsightsReconciler.isPullSecretOrProxyConfig (r : InsightsReconciler) (secret : Object) :
    List Request :=
  if !(secret.GetNamespace == "openshift-config" && secret.GetName == "pull-secret") &&
      !(secret.GetNamespace == r.Namespace && secret.GetName == ProxySecretName) then
    []
  else
    r.proxyDeploymentRequest

def InsightsReconciler.isProxyDeployment (r : InsightsReconciler) (deploy : Object) :
    List Request :=
  if deploy.GetNamespace != r.Namespace || deploy.GetName != ProxyDeploymentName then
    []
  else
    r.proxyDeploymentRequest

def InsightsReconciler.isProxyService (r : InsightsReconciler) (svc : Object) :
    List Request :=
  if svc.GetNamespace != r.Namespace || svc.GetName != ProxyServiceName then
    []
  else
    r.proxyDeploymentRequest

/-! ## The manager: cluster store, registered controllers, logger -/

/-- Call made to one of the manager's collaborators. -/
inductive Call where
  /-- The controller builder's `Complete`: registration of a named controller and its
  watches with the manager. -/
  | complete (name : String) (watches : List String)
  /-- The API reader's `Get` of a kind at a namespace and name. -/
  | get (kind : String) (ns : String) (name : String)
  /-- The client's `Create` of an object. -/
  | create (obj : Object)
  /-- The client's `Delete` of an object. -/
  | delete (obj : Object)
deriving DecidableEq, Repr

/-- Entry written through the integration's logger. -/
inductive LogEntry where
  | info (msg : String)
  | error (err : Error) (msg : String)
deriving DecidableEq, Repr

/-- Controller added to the manager: its name, the kinds it watches, and the namespace
of the reconciler behind it. -/
structure Controller where
  Named : String
  Watches : List String
  Namespace : String
deriving DecidableEq, Repr

/-- State behind `i.Manager` and `i.Log`: the objects of the cluster store, the
controllers registered with the manager, the collaborator calls made so far (oldest
first) and the log. -/
structure World where
  objects : List Object
  controllers : List Controller
  calls : List Call
  log : List LogEntry
deriving DecidableEq, Repr

/-- Failures of the collaborators that do not come from the content of the store
(permission denied, network failure, unregistered kind, ...), one per collaborator call
of a `Setup` invocation; `none` lets the call be answered from the store. -/
structure Faults where
  complete : Option Error := none
  get : Option Error := none
  setControllerReference : Option Error := none
  create : Option Error := none
  delete : Option Error := none
deriving DecidableEq, Repr

def World.call (w : World) (c : Call) : World := { w with calls := w.calls ++ [c] }

def World.logInfo (w : World) (msg : String) : World := { w with log := w.log ++ [.info msg] }

def World.logError (w : World) (err : Error) (msg : String) : World :=
  { w with log := w.log ++ [.error err msg] }

/-- Whether an object is the one of the given kind at the given namespace and name. -/
def Object.isAt (kind ns name : String) (o : Object) : Bool :=
  o.Kind == kind && o.Namespace == ns && o.Name == name

def World.find (w : World) (kind ns name : String) : Option Object :=
  w.objects.find? (Object.isAt kind ns name)

/-- The reader's `Get`: the injected failure if any, else the stored object, else a
not-found status error. -/
def World.Get (w : World) (fault : Option Error) (kind ns name : String) :
    Except Error Object × World :=
  let w1 := w.call (.get kind ns name)
  match fault with
  | some e => (.error e, w1)
  | none =>
    match w.find kind ns name with
    | some o => (.ok o, w1)
    | none => (.error (.status "NotFound" 404 (kind ++ " \"" ++ name ++ "\" not found")), w1)

/-- The client's `Create`: the injected failure if any, else an already-exists status
error when an object of that kind, namespace and name is stored, else the object is
added to the store. -/
def World.Create (w : World) (fault : Option Error) (obj : Object) : Option Error × World :=
  let w1 := w.call (.create obj)
  match fault with
  | some e => (some e, w1)
  | none =>
    match w.find obj.Kind obj.Namespace obj.Name with
    | some _ => (some (.status "AlreadyExists" 409 (obj.Kind ++ " \"" ++ obj.Name ++ "\" already exists")), w1)
    | none => (none, { w1 with objects := w1.objects ++ [obj] })

/-- The client's `Delete`: the injected failure if any, else a not-found status error
when no such object is stored, else the object is removed from the store. -/
def World.Delete (w : World) (fault : Option Error) (obj : Object) : Option Error × World :=
  let w1 := w.call (.delete obj)
  match fault with
  | some e => (some e, w1)
  | none =>
    match w.find obj.Kind obj.Namespace obj.Name with
    | none => (some (.status "NotFound" 404 (obj.Kind ++ " \"" ++ obj.Name ++ "\" not found")), w1)
    | some _ =>
      (none, { w1 with objects :=
        w1.objects.filter (fun o => !(Object.isAt obj.Kind obj.Namespace obj.Name o)) })

/-- The helper `controllerutil.SetControllerReference` for a Deployment owner: the
injected failure if any (the owner's kind is unknown to the scheme), the owner
validation (a namespaced owner needs a namespaced object of its own namespace), the
refusal of a second controller, and then the controller reference is appended. -/
def SetControllerReference (fault : Option Error) (owner : Object) (controlled : Object) :
    Except Error Object :=
  match fault with
  | some e => .error e
  | none =>
    if owner.Namespace != "" && controlled.Namespace == "" then
      .error (.plain "cluster-scoped resource must not have a namespace-scoped owner")
    else if owner.Namespace != "" && owner.Namespace != controlled.Namespace then
      .error (.plain "cross-namespace owner references are disallowed")
    else
      let ref : OwnerReference :=
        { APIVersion := "apps/v1", Kind := owner.Kind, Name := owner.Name, UID := owner.UID
          Controller := true, BlockOwnerDeletion := true }
      match controlled.OwnerReferences.find? (fun r => r.Controller) with
      | some existing =>
        if existing.APIVersion == ref.APIVersion && existing.Kind == ref.Kind
            && existing.Name == ref.Name then
          .ok { controlled with OwnerReferences :=
                  controlled.OwnerReferences.map (fun r =>
                    if r.APIVersion == ref.APIVersion && r.Kind == ref.Kind && r.Name == ref.Name
                    then ref else r) }
        else
          .error (.plain "Object is already owned by another controller")
      | none => .ok { controlled with OwnerReferences := controlled.OwnerReferences ++ [ref] }

/-- Registers the controller named "insights" with its three watches; `Complete` may
fail with the injected failure. -/
def InsightsReconciler.SetupWithManager (r : InsightsReconciler) (fault : Option Error)
    (w : World) : Option Error × World :=
  let w1 := w.call (.complete "insights" ["Secret", "Deployment", "Service"])
  match fault with
  | some e => (some e, w1)
  | none =>
    (none, { w1 with controllers := w1.controllers ++
      [{ Named := "insights", Watches := ["Secret", "Deployment", "Service"],
         Namespace := r.Namespace }] })

/-! ## Library functions used by `pkg/insights/setup.go` -/

/-- The rune mapping `unicode.ToLower`, as far as a comparison with an ASCII string can
tell: the ASCII capitals, and the two runes outside ASCII whose lower case is an ASCII
letter (U+0130 to i, U+212A to k). Every other rune outside ASCII has a lower case
outside ASCII and is left in place. -/
def toLowerRune (c : Char) : Char :=
  if 65 ≤ c.toNat ∧ c.toNat ≤ 90 then Char.ofNat (c.toNat + 32)
  else if c.toNat = 0x130 then 'i'
  else if c.toNat = 0x212A then 'k'
  else c

/-- The string function `strings.ToLower`. -/
def ToLower (s : String) : String := String.mk (s.data.map toLowerRune)

/-- The UTF-8 bytes of a rune. -/
def utf8Bytes (c : Char) : List Nat :=
  let n := c.toNat
  if n < 0x80 then [n]
  else if n < 0x800 then [0xC0 + n / 64, 0x80 + n % 64]
  else if n < 0x10000 then [0xE0 + n / 4096, 0x80 + n / 64 % 64, 0x80 + n % 64]
  else [0xF0 + n / 262144, 0x80 + n / 4096 % 64, 0x80 + n / 64 % 64, 0x80 + n % 64]

/-- The byte test `shouldEscape` of `net/url` in host mode: letters, digits, the
sub-delimiters allowed in a host, and the unreserved marks stay; every other byte is
percent-encoded. -/
def shouldEscapeHost (b : Nat) : Bool :=
  if (97 ≤ b && b ≤ 122) || (65 ≤ b && b ≤ 90) || (48 ≤ b && b ≤ 57) then false
  else if [33, 36, 38, 39, 40, 41, 42, 43, 44, 59, 61, 58, 91, 93, 60, 62, 34].contains b then
    false
  else if [45, 95, 46, 126].contains b then false
  else true

def upperhex : List Char := "0123456789ABCDEF".data

/-- Percent-encoding of one byte. -/
def escapeByte (b : Nat) : List Char :=
  ['%', upperhex.getD (b / 16) '0', upperhex.getD (b % 16) '0']

/-- Host-mode escaping of one rune: kept when it is a single byte that needs no escape,
else every byte of it is percent-encoded. -/
def escapeHostRune (c : Char) : List Char :=
  if c.toNat < 0x80 ∧ shouldEscapeHost c.toNat = false then [c]
  else (utf8Bytes c).foldr (fun b acc => escapeByte b ++ acc) []

/-- The function `escape(s, encodeHost)` of `net/url`. -/
def escapeHost (s : String) : String :=
  String.mk (s.data.foldr (fun c acc => escapeHostRune c ++ acc) [])

/-- The fields of `url.URL` set by the integration; all others are zero. -/
structure URL where
  Scheme : String
  Host : String
deriving DecidableEq, Repr

/-- The method `(*url.URL).String` for a URL with only `Scheme` and `Host` set. -/
def URL.string (u : URL) : String :=
  (if u.Scheme != "" then u.Scheme ++ ":" else "") ++
  (if u.Scheme != "" || u.Host != "" then
    (if u.Host != "" then "//" ++ escapeHost u.Host else "")
   else "")

/-! ## The integration (`pkg/insights/setup.go`) -/

/-- The integration: operator name and namespace, user-agent prefix and the embedded
`common.OSUtils`; its `Manager` and `Log` are the `World` passed to `Setup`. -/
structure InsightsIntegration where
  opName : String
  opNamespace : String
  userAgentPrefix : String
  GetEnv : String → String

def InsightsIntegration.isInsightsEnabled (i : InsightsIntegration) : Bool :=
  ToLower (i.GetEnv EnvInsightsEnabled) == "true"

/-- The configuration literal `config` of `createInsightsController`. -/
def InsightsIntegration.reconcilerConfig (i : InsightsIntegration) : InsightsReconcilerConfig :=
  { Namespace := i.opNamespace, UserAgentPrefix := i.userAgentPrefix, GetEnv := i.GetEnv }

def InsightsIntegration.createInsightsController (i : InsightsIntegration) (f : Faults)
    (w : World) : Option Error × World :=
  let config := i.reconcilerConfig
  match NewInsightsReconciler config with
  | .error err => (some err, w)
  | .ok controller =>
    match controller.SetupWithManager f.complete w with
    | (some err, w1) => (some err, w1)
    | (none, w1) => (none, w1)

/-- The ConfigMap literal built by `createConfigMap` and `deleteConfigMap`. -/
def InsightsIntegration.marker (i : InsightsIntegration) : Object :=
  { Kind := "ConfigMap", Name := InsightsConfigMapName, Namespace := i.opNamespace }

def InsightsIntegration.createConfigMap (i : InsightsIntegration) (f : Faults) (w : World) :
    Option Error × World :=
  match w.Get f.get "Deployment" i.opNamespace i.opName with
  | (.error err, w1) => (some err, w1)
  | (.ok owner, w1) =>
    let cm := i.marker
    match SetControllerReference f.setControllerReference owner cm with
    | .error err => (some err, w1)
    | .ok cm =>
      match w1.Create f.create cm with
      | (none, w2) => (IgnoreAlreadyExists none, w2.logInfo "Config Map for Insights created")
      | (some err, w2) => (IgnoreAlreadyExists (some err), w2)

def InsightsIntegration.deleteConfigMap (i : InsightsIntegration) (f : Faults) (w : World) :
    Option Error × World :=
  let cm := i.marker
  match w.Delete f.delete cm with
  | (none, w1) => (IgnoreNotFound none, w1.logInfo "Config Map for Insights deleted")
  | (some err, w1) => (IgnoreNotFound (some err), w1)

def InsightsIntegration.getProxyURL (i : InsightsIntegration) : URL :=
  { Scheme := "http"
    Host := ProxyServiceName ++ "." ++ i.opNamespace ++ ".svc.cluster.local:" ++
      toString ProxyServicePort }

/-- Adds the controller to the manager and creates the marker ConfigMap when Insights is
enabled, deletes the marker otherwise; returns the proxy URL and the error. -/
def InsightsIntegration.Setup (i : InsightsIntegration) (f : Faults) (w : World) :
    (Option URL × Option Error) × World :=
  if i.opNamespace.length = 0 then
    ((none, none), w.logInfo "Operator namespace not detected")
  else if i.opName.length = 0 then
    ((none, none), w.logInfo "Operator name not detected")
  else if i.userAgentPrefix.length = 0 then
    ((none, none), w.logInfo "User Agent prefix not detected")
  else if i.isInsightsEnabled then
    match i.createInsightsController f w with
    | (some err, w1) =>
      ((none, some err), w1.logError err "unable to add controller to manager")
    | (none, w1) =>
      match i.createConfigMap f w1 with
      | (some err, w2) =>
        ((none, some err), w2.logError err "failed to create config map for Insights")
      | (none, w2) => ((some i.getProxyURL, none), w2)
  else
    match i.deleteConfigMap f w with
    | (some err, w1) =>
      ((none, some err), w1.logError err "failed to delete config map for Insights")
    | (none, w1) => ((none, none), w1)

/-! ## Test fixtures -/

/-- Environment of the unit tests: Insights enabled, backend domain and image tag set. -/
def testEnv (k : String) : String :=
  if k = EnvInsightsEnabled then "true"
  else if k = EnvInsightsBackendDomain then "insights.example.com"
  else if k = EnvInsightsProxyImageTag then "example.com/proxy:latest"
  else ""

def testReconciler : InsightsReconciler :=
  { config := { Namespace := "test", UserAgentPrefix := "", GetEnv := testEnv }
    backendDomain := "insights.example.com", proxyDomain := ""
    proxyImageTag := "example.com/proxy:latest", testPullSecretName := "" }

def testIntegration : InsightsIntegration :=
  { opName := "insights-test-controller-manager", opNamespace := "test"
    userAgentPrefix := "test-operator/0.0.0", GetEnv := testEnv }

def operatorDeployment : Object :=
  { Kind := "Deployment", Namespace := "test", Name := "insights-test-controller-manager"
    UID := "uid-1" }

def testWorld : World :=
  { objects := [operatorDeployment], controllers := [], calls := [], log := [] }

/-- The sixteen spellings of "true" in upper-case and lower-case letters: the strings
equal to "true" under a case-insensitive comparison. -/
def trueSpellings : List String :=
  ["true", "truE", "trUe", "trUE", "tRue", "tRuE", "tRUe", "tRUE",
   "True", "TruE", "TrUe", "TrUE", "TRue", "TRuE", "TRUe", "TRUE"]

/-- Consecutive `Setup` invocations of one integration on the same manager, one per
entry of the list of collaborator failures; returns the results in order and the final
state. -/
def InsightsIntegration.SetupAll (i : InsightsIntegration) :
    List Faults → World → List (Option URL × Option Error) × World
  | [], w => ([], w)
  | f :: fs, w =>
    let r := i.Setup f w
    let rest := InsightsIntegration.SetupAll i fs r.2
    (r.1 :: rest.1, rest.2)

/-- Whether every rune of a string is a single byte that `net/url` leaves unescaped in a
host: an ASCII letter or digit or one of the marks of `shouldEscapeHost`. -/
def hostSafe (s : String) : Bool :=
  s.data.all (fun c => decide (c.toNat < 0x80) && !shouldEscapeHost c.toNat)

/-- The test integration with the marker already in the store and no operator
namespace, as when run out of cluster. -/
def outOfClusterIntegration : InsightsIntegration := { testIntegration with opNamespace := "" }

def proxyConfigMap : Object :=
  { Kind := "ConfigMap", Namespace := "test", Name := "insights-proxy" }

def markedWorld : World :=
  { objects := [operatorDeployment, proxyConfigMap], controllers := [], calls := [], log := [] }

/-- An integration whose operator namespace holds a blank. -/
def blankIntegration : InsightsIntegration := { testIntegration with opNamespace := "a b" }

def blankWorld : World :=
  { objects := [{ operatorDeployment with Namespace := "a b" }], controllers := [],
    calls := [], log := [] }

/-- The test environment with Insights disabled. -/
def disabledEnv (k : String) : String := if k = EnvInsightsEnabled then "false" else testEnv k

def disabledIntegration : InsightsIntegration := { testIntegration with GetEnv := disabledEnv }

/-- The test store without the operator deployment. -/
def emptyWorld : World := { objects := [], controllers := [], calls := [], log := [] }

/-- A permission failure of the API server. -/
def forbidden : Error := .status "Forbidden" 403 "configmaps is forbidden"

/-- An answer with HTTP code 404 and no status reason, as sent by a server that does not
serve the requested path. -/
def bareNotFound : Error := .status "" 404 "404 page not found"

/-- Whether the injected failures are external to the store: an answer to a create that
`IsAlreadyExists` accepts and an answer to a delete that `IsNotFound` accepts (reason
NotFound, or an unknown reason with code 404) come from the content of the store only,
never from an injected failure. -/
def Faults.external (f : Faults) : Bool :=
  f.create.all (fun e => !IsAlreadyExists e) && f.delete.all (fun e => !IsNotFound e)

/-- Number of stored objects of a kind at a namespace and name. -/
def World.count (w : World) (kind ns name : String) : Nat :=
  (w.objects.filter (Object.isAt kind ns name)).length

/-- Whether the marker ConfigMap "insights-proxy" of the integration is in the store. -/
def InsightsIntegration.markerExists (i : InsightsIntegration) (w : World) : Bool :=
  (w.find "ConfigMap" i.opNamespace "insights-proxy").isSome

def Call.isComplete : Call → Bool
  | .complete _ _ => true
  | _ => false

def Call.isCreate : Call → Bool
  | .create _ => true
  | _ => false

def Call.isDelete : Call → Bool
  | .delete _ => true
  | _ => false

/-- The registration call of `SetupWithManager`. -/
def registerWatches : Call := .complete "insights" ["Secret", "Deployment", "Service"]

/-- The owner read of `createConfigMap`. -/
def InsightsIntegration.readOwner (i : InsightsIntegration) : Call :=
  .get "Deployment" i.opNamespace i.opName

/-- The controller owner reference to an owner, as `SetControllerReference` builds it. -/
def controllerRef (owner : Object) : OwnerReference :=
  { APIVersion := "apps/v1", Kind := owner.Kind, Name := owner.Name, UID := owner.UID
    Controller := true, BlockOwnerDeletion := true }

/-- The marker ConfigMap with the controller reference to an owner: the object that
`createConfigMap` passes to `Create`. -/
def InsightsIntegration.ownedMarker (i : InsightsIntegration) (owner : Object) : Object :=
  { Kind := "ConfigMap", Namespace := i.opNamespace, Name := "insights-proxy", UID := ""
    Labels := [], Annotations := [], Data := [], OwnerReferences := [controllerRef owner] }

/-! ## Watch predicates -/

/-- C1: the secret predicate returns a non-empty list exactly for the cluster pull
secret ("pull-secret" in "openshift-config") and for the proxy configuration secret
("apicastconf" in the operator namespace), and the empty list in every other case; a
secret named "pull-secret" in a namespace other than "openshift-config" yields the
empty list. -/
theorem isPullSecretOrProxyConfig_matches (r : InsightsReconciler) (s : Object)
    (other : String) (hother : other ≠ "openshift-config") :
    (r.isPullSecretOrProxyConfig s ≠ [] ↔
      (s.Namespace = "openshift-config" ∧ s.Name = "pull-secret") ∨
      (s.Namespace = r.Namespace ∧ s.Name = "apicastconf")) ∧
    (r.isPullSecretOrProxyConfig s = [] ↔
      ¬ ((s.Namespace = "openshift-config" ∧ s.Name = "pull-secret") ∨
         (s.Namespace = r.Namespace ∧ s.Name = "apicastconf"))) ∧
    r.isPullSecretOrProxyConfig { s with Namespace := other, Name := "pull-secret" } = [] := by
  refine ⟨?_, ?_, ?_⟩
  · by_cases h1 : s.Namespace = "openshift-config" ∧ s.Name = "pull-secret" <;>
      by_cases h2 : s.Namespace = r.Namespace ∧ s.Name = "apicastconf" <;>
      simp [InsightsReconciler.isPullSecretOrProxyConfig,
        InsightsReconciler.proxyDeploymentRequest, Object.GetNamespace, Object.GetName,
        ProxySecretName, h1, h2]
  · by_cases h1 : s.Namespace = "openshift-config" ∧ s.Name = "pull-secret" <;>
      by_cases h2 : s.Namespace = r.Namespace ∧ s.Name = "apicastconf" <;>
      simp [InsightsReconciler.isPullSecretOrProxyConfig,
        InsightsReconciler.proxyDeploymentRequest, Object.GetNamespace, Object.GetName,
        ProxySecretName, h1, h2]
  · have hne : ("pull-secret" : String) ≠ "apicastconf" := by decide
    simp [InsightsReconciler.isPullSecretOrProxyConfig, Object.GetNamespace, Object.GetName,
      ProxySecretName, hother, hne]

/-- C1, at the unit test's inputs: with operator namespace "test", the cluster pull
secret matches and a "pull-secret" in namespace "other" does not. -/
theorem isPullSecretOrProxyConfig_matches_witness :
    "other" ≠ "openshift-config" ∧
    testReconciler.isPullSecretOrProxyConfig
      { Kind := "Secret", Namespace := "openshift-config", Name := "pull-secret" } ≠ [] ∧
    testReconciler.isPullSecretOrProxyConfig
      { Kind := "Secret", Namespace := "other", Name := "pull-secret" } = [] :=
  have h := isPullSecretOrProxyConfig_matches testReconciler
    { Kind := "Secret", Namespace := "openshift-config", Name := "pull-secret" } "other"
    (by decide)
  ⟨by decide, h.1.mpr (Or.inl ⟨rfl, rfl⟩), h.2.2⟩

/-- C2: the deployment predicate returns a non-empty list exactly for the deployment
"insights-proxy" in the operator namespace, and the empty list otherwise; with operator
namespace "test", an "insights-proxy" deployment in namespace "other" yields the empty
list. -/
theorem isProxyDeployment_matches (r : InsightsReconciler) (d : Object) :
    (r.isProxyDeployment d ≠ [] ↔ d.Namespace = r.Namespace ∧ d.Name = "insights-proxy") ∧
    (r.isProxyDeployment d = [] ↔ ¬ (d.Namespace = r.Namespace ∧ d.Name = "insights-proxy")) ∧
    testReconciler.isProxyDeployment
      { Kind := "Deployment", Namespace := "other", Name := "insights-proxy" } = [] := by
  refine ⟨?_, ?_, by decide⟩ <;>
    by_cases h1 : d.Namespace = r.Namespace <;> by_cases h2 : d.Name = "insights-proxy" <;>
    simp [InsightsReconciler.isProxyDeployment, InsightsReconciler.proxyDeploymentRequest,
      Object.GetNamespace, Object.GetName, ProxyDeploymentName, InsightsConfigMapName, h1, h2]

/-- C3: the service predicate returns a non-empty list exactly for the service
"insights-proxy" in the operator namespace, and the empty list otherwise; with operator
namespace "test", an "insights-proxy" service in namespace "other" yields the empty
list. -/
theorem isProxyService_matches (r : InsightsReconciler) (s : Object) :
    ProxyServiceName = "insights-proxy" ∧
    (r.isProxyService s ≠ [] ↔ s.Namespace = r.Namespace ∧ s.Name = "insights-proxy") ∧
    (r.isProxyService s = [] ↔ ¬ (s.Namespace = r.Namespace ∧ s.Name = "insights-proxy")) ∧
    testReconciler.isProxyService
      { Kind := "Service", Namespace := "other", Name := "insights-proxy" } = [] := by
  refine ⟨by decide, ?_, ?_, by decide⟩ <;>
    by_cases h1 : s.Namespace = r.Namespace <;> by_cases h2 : s.Name = "insights-proxy" <;>
    simp [InsightsReconciler.isProxyService, InsightsReconciler.proxyDeploymentRequest,
      Object.GetNamespace, Object.GetName, ProxyServiceName, ProxyDeploymentName,
      InsightsConfigMapName, h1, h2]

/-- C4: each of the three predicates returns either the empty list or exactly the
one-element list holding the request for "insights-proxy" in the operator namespace; so
no result has more than one request, and any two predicates that match (on whatever
objects) return identical lists. -/
theorem predicates_canonical (r : InsightsReconciler) (a b c : Object) :
    let canonical : List Request := [{ Namespace := r.Namespace, Name := "insights-proxy" }]
    (r.isPullSecretOrProxyConfig a = [] ∨ r.isPullSecretOrProxyConfig a = canonical) ∧
    (r.isProxyDeployment b = [] ∨ r.isProxyDeployment b = canonical) ∧
    (r.isProxyService c = [] ∨ r.isProxyService c = canonical) ∧
    (r.isPullSecretOrProxyConfig a).length ≤ 1 ∧
    (r.isProxyDeployment b).length ≤ 1 ∧
    (r.isProxyService c).length ≤ 1 ∧
    (r.isPullSecretOrProxyConfig a = [] ∨ r.isProxyDeployment b = [] ∨
      r.isPullSecretOrProxyConfig a = r.isProxyDeployment b) ∧
    (r.isPullSecretOrProxyConfig a = [] ∨ r.isProxyService c = [] ∨
      r.isPullSecretOrProxyConfig a = r.isProxyService c) ∧
    (r.isProxyDeployment b = [] ∨ r.isProxyService c = [] ∨
      r.isProxyDeployment b = r.isProxyService c) := by
  have hreq : r.proxyDeploymentRequest =
      [{ Namespace := r.Namespace, Name := "insights-proxy" }] := rfl
  have ha : r.isPullSecretOrProxyConfig a = [] ∨
      r.isPullSecretOrProxyConfig a = r.proxyDeploymentRequest := by
    unfold InsightsReconciler.isPullSecretOrProxyConfig
    split
    · exact Or.inl rfl
    · exact Or.inr rfl
  have hb : r.isProxyDeployment b = [] ∨ r.isProxyDeployment b = r.proxyDeploymentRequest := by
    unfold InsightsReconciler.isProxyDeployment
    split
    · exact Or.inl rfl
    · exact Or.inr rfl
  have hc : r.isProxyService c = [] ∨ r.isProxyService c = r.proxyDeploymentRequest := by
    unfold InsightsReconciler.isProxyService
    split
    · exact Or.inl rfl
    · exact Or.inr rfl
  rw [hreq] at ha hb hc
  intro canonical
  rcases ha with ha | ha <;> rcases hb with hb | hb <;> rcases hc with hc | hc <;>
    simp [ha, hb, hc, canonical]

/-! ## Enablement flag and reconciler construction -/

theorem toLowerRune_small : ∀ n, n < 128 → ∀ x ∈ ['t', 'r', 'u', 'e'],
    (toLowerRune (Char.ofNat n) = x ↔
      Char.ofNat n = x ∨ Char.ofNat n = Char.ofNat (x.toNat - 32)) := by
  decide

theorem toLowerRune_eq_iff (c x : Char) (hx : x ∈ ['t', 'r', 'u', 'e']) :
    toLowerRune c = x ↔ c = x ∨ c = Char.ofNat (x.toNat - 32) := by
  by_cases hc : c.toNat < 128
  · have h := toLowerRune_small c.toNat hc x hx
    rwa [Char.ofNat_toNat] at h
  · have hx1 : x.toNat < 128 ∧ (Char.ofNat (x.toNat - 32)).toNat < 128 ∧ x ≠ 'i' ∧ x ≠ 'k' := by
      simp only [List.mem_cons, List.mem_singleton, List.not_mem_nil, or_false] at hx
      rcases hx with rfl | rfl | rfl | rfl <;> decide
    have hne : c ≠ x := fun h => hc (h ▸ hx1.1)
    have hne2 : c ≠ Char.ofNat (x.toNat - 32) := fun h => hc (h ▸ hx1.2.1)
    have h90 : ¬ (65 ≤ c.toNat ∧ c.toNat ≤ 90) := by omega
    have hi : ('i' : Char) ≠ x := fun h => hx1.2.2.1 h.symm
    have hk : ('k' : Char) ≠ x := fun h => hx1.2.2.2 h.symm
    unfold toLowerRune
    rw [if_neg h90]
    split_ifs <;> simp [hne, hne2, hi, hk]

theorem toLower_eq_true_iff (v : String) :
    (ToLower v == "true") = true ↔ v ∈ trueSpellings := by
  constructor
  · intro h
    have h1 : v.data.map toLowerRune = ['t', 'r', 'u', 'e'] := by
      have h2 : ToLower v = "true" := by simpa using h
      have h3 := congrArg String.data h2
      simpa [ToLower] using h3
    obtain ⟨l⟩ := v
    rcases l with _ | ⟨a, _ | ⟨b, _ | ⟨c, _ | ⟨d, _ | ⟨e, l⟩⟩⟩⟩⟩ <;>
      simp only [List.map, List.cons.injEq, and_true, reduceCtorEq, and_false] at h1
    obtain ⟨ha, hb, hc, hd⟩ := h1
    rw [toLowerRune_eq_iff _ _ (by decide)] at ha hb hc hd
    rcases ha with rfl | rfl <;> rcases hb with rfl | rfl <;> rcases hc with rfl | rfl <;>
      rcases hd with rfl | rfl <;> decide
  · intro h
    simp only [trueSpellings, List.mem_cons, List.mem_singleton, List.not_mem_nil, or_false] at h
    rcases h with rfl | rfl | rfl | rfl | rfl | rfl | rfl | rfl | rfl | rfl | rfl | rfl | rfl |
      rfl | rfl | rfl <;> decide

/-- C7: the integration is enabled exactly when the value of INSIGHTS_ENABLED is one of
the spellings of "true" in upper-case and lower-case letters; "true", "TRUE", "True" and
"tRuE" enable it, while the empty string, "1", "yes", "false" and "true" with a leading
or trailing blank do not. -/
theorem isInsightsEnabled_iff (i : InsightsIntegration) :
    (i.isInsightsEnabled = true ↔ i.GetEnv "INSIGHTS_ENABLED" ∈ trueSpellings) ∧
    ["true", "TRUE", "True", "tRuE"].all
      (fun v => ({ i with GetEnv := fun _ => v }).isInsightsEnabled) = true ∧
    ["", "1", "yes", "false", " true", "true "].all
      (fun v => !({ i with GetEnv := fun _ => v }).isInsightsEnabled) = true := by
  refine ⟨toLower_eq_true_iff (i.GetEnv "INSIGHTS_ENABLED"), ?_, ?_⟩ <;>
    simp only [InsightsIntegration.isInsightsEnabled] <;> decide

theorem length_eq_zero_iff (s : String) : s.length = 0 ↔ s = "" := by
  obtain ⟨l⟩ := s
  cases l <;> simp [String.length, String.ext_iff]

/-- C8: construction of the reconciler fails exactly when INSIGHTS_BACKEND_DOMAIN or
RELATED_IMAGE_INSIGHTS_PROXY is empty, whatever INSIGHTS_PROXY_DOMAIN and
INSIGHTS_TEST_PULL_SECRET_NAME hold (both may be empty); on success the four fields of
the reconciler are the four environment values and its namespace is the configured
one. -/
theorem NewInsightsReconciler_validation (config : InsightsReconcilerConfig) :
    ((∃ e, NewInsightsReconciler config = .error e) ↔
      config.GetEnv "INSIGHTS_BACKEND_DOMAIN" = "" ∨
      config.GetEnv "RELATED_IMAGE_INSIGHTS_PROXY" = "") ∧
    ((∃ r, NewInsightsReconciler config = .ok r) ↔
      config.GetEnv "INSIGHTS_BACKEND_DOMAIN" ≠ "" ∧
      config.GetEnv "RELATED_IMAGE_INSIGHTS_PROXY" ≠ "") ∧
    (match NewInsightsReconciler config with
      | .error _ => True
      | .ok r =>
        r.backendDomain = config.GetEnv "INSIGHTS_BACKEND_DOMAIN" ∧
        r.proxyImageTag = config.GetEnv "RELATED_IMAGE_INSIGHTS_PROXY" ∧
        r.proxyDomain = config.GetEnv "INSIGHTS_PROXY_DOMAIN" ∧
        r.testPullSecretName = config.GetEnv "INSIGHTS_TEST_PULL_SECRET_NAME" ∧
        r.Namespace = config.Namespace) ∧
    (∃ r, NewInsightsReconciler { config with GetEnv := testEnv } = .ok r ∧
      r.proxyDomain = "" ∧ r.testPullSecretName = "") := by
  refine ⟨?_, ?_, ?_, ?_⟩
  · by_cases hb : config.GetEnv "INSIGHTS_BACKEND_DOMAIN" = "" <;>
      by_cases ht : config.GetEnv "RELATED_IMAGE_INSIGHTS_PROXY" = "" <;>
      simp [NewInsightsReconciler, length_eq_zero_iff, EnvInsightsBackendDomain,
        EnvInsightsProxyImageTag, hb, ht]
  · by_cases hb : config.GetEnv "INSIGHTS_BACKEND_DOMAIN" = "" <;>
      by_cases ht : config.GetEnv "RELATED_IMAGE_INSIGHTS_PROXY" = "" <;>
      simp [NewInsightsReconciler, length_eq_zero_iff, EnvInsightsBackendDomain,
        EnvInsightsProxyImageTag, hb, ht]
  · by_cases hb : config.GetEnv "INSIGHTS_BACKEND_DOMAIN" = "" <;>
      by_cases ht : config.GetEnv "RELATED_IMAGE_INSIGHTS_PROXY" = "" <;>
      simp [NewInsightsReconciler, length_eq_zero_iff, EnvInsightsBackendDomain,
        EnvInsightsProxyImageTag, EnvInsightsProxyDomain, EnvTestPullSecretName,
        InsightsReconciler.Namespace, hb, ht]
  · exact ⟨_, rfl, rfl, rfl⟩

/-! ## Setup: how its result is assembled -/

theorem World.Get_fst_congr (w1 w2 : World) (h : w1.objects = w2.objects)
    (fault : Option Error) (kind ns name : String) :
    (w1.Get fault kind ns name).1 = (w2.Get fault kind ns name).1 := by
  unfold World.Get World.find
  rw [h]
  cases fault with
  | some e => rfl
  | none => cases List.find? (Object.isAt kind ns name) w2.objects <;> rfl

theorem World.Create_fst_congr (w1 w2 : World) (h : w1.objects = w2.objects)
    (fault : Option Error) (obj : Object) :
    (w1.Create fault obj).1 = (w2.Create fault obj).1 := by
  unfold World.Create World.find
  rw [h]
  cases fault with
  | some e => rfl
  | none => cases List.find? (Object.isAt obj.Kind obj.Namespace obj.Name) w2.objects <;> rfl

theorem World.Get_objects (w : World) (fault : Option Error) (kind ns name : String) :
    (w.Get fault kind ns name).2.objects = w.objects := by
  unfold World.Get World.call
  cases fault with
  | some e => rfl
  | none => cases w.find kind ns name <;> rfl

theorem createInsightsController_fst (i : InsightsIntegration) (f : Faults) (w : World) :
    (i.createInsightsController f w).1 =
      match NewInsightsReconciler i.reconcilerConfig with
      | .error e => some e
      | .ok _ => f.complete := by
  unfold InsightsIntegration.createInsightsController InsightsReconciler.SetupWithManager
  dsimp only
  cases NewInsightsReconciler i.reconcilerConfig with
  | error e => rfl
  | ok r => cases f.complete <;> rfl

theorem createInsightsController_objects (i : InsightsIntegration) (f : Faults) (w : World) :
    (i.createInsightsController f w).2.objects = w.objects := by
  unfold InsightsIntegration.createInsightsController InsightsReconciler.SetupWithManager
  dsimp only
  cases NewInsightsReconciler i.reconcilerConfig with
  | error e => rfl
  | ok r => cases f.complete <;> rfl

theorem createConfigMap_fst (i : InsightsIntegration) (f : Faults) (w : World) :
    (i.createConfigMap f w).1 =
      match (w.Get f.get "Deployment" i.opNamespace i.opName).1 with
      | .error e => some e
      | .ok owner =>
        match SetControllerReference f.setControllerReference owner i.marker with
        | .error e => some e
        | .ok cm => IgnoreAlreadyExists (w.Create f.create cm).1 := by
  unfold InsightsIntegration.createConfigMap
  rcases hg : w.Get f.get "Deployment" i.opNamespace i.opName with ⟨_ | owner, w1⟩
  · rfl
  · have hobj : w1.objects = w.objects := by
      have := World.Get_objects w f.get "Deployment" i.opNamespace i.opName
      rwa [hg] at this
    simp only
    cases hs : SetControllerReference f.setControllerReference owner i.marker with
    | error e => rfl
    | ok cm =>
      simp only
      rw [← World.Create_fst_congr w1 w hobj]
      rcases hc : w1.Create f.create cm with ⟨_ | e, w2⟩ <;> rfl

theorem createConfigMap_fst_congr (i : InsightsIntegration) (f : Faults) (w1 w2 : World)
    (h : w1.objects = w2.objects) : (i.createConfigMap f w1).1 = (i.createConfigMap f w2).1 := by
  rw [createConfigMap_fst, createConfigMap_fst,
    World.Get_fst_congr w1 w2 h]
  cases (w2.Get f.get "Deployment" i.opNamespace i.opName).1 with
  | error e => rfl
  | ok owner =>
    simp only
    cases SetControllerReference f.setControllerReference owner i.marker with
    | error e => rfl
    | ok cm => simp only [World.Create_fst_congr w1 w2 h]

theorem Setup_enabled_fst (i : InsightsIntegration) (f : Faults) (w : World)
    (hns : i.opNamespace ≠ "") (hname : i.opName ≠ "") (hua : i.userAgentPrefix ≠ "")
    (hen : i.isInsightsEnabled = true) :
    (i.Setup f w).1 =
      match (i.createInsightsController f w).1 with
      | some e => (none, some e)
      | none =>
        match (i.createConfigMap f w).1 with
        | some e => (none, some e)
        | none => (some i.getProxyURL, none) := by
  rw [← createConfigMap_fst_congr i f _ w (createInsightsController_objects i f w)]
  unfold InsightsIntegration.Setup
  rw [if_neg (by rwa [length_eq_zero_iff]), if_neg (by rwa [length_eq_zero_iff]),
    if_neg (by rwa [length_eq_zero_iff]), if_pos hen]
  rcases i.createInsightsController f w with ⟨_ | e, w1⟩
  · simp only
    rcases i.createConfigMap f w1 with ⟨_ | e, w2⟩ <;> rfl
  · rfl

theorem getProxyURL_eq (i : InsightsIntegration) :
    i.getProxyURL =
      { Scheme := "http"
        Host := "insights-proxy." ++ i.opNamespace ++ ".svc.cluster.local:8080" } := by
  have h : toString ProxyServicePort = "8080" := by decide
  simp only [InsightsIntegration.getProxyURL, h, ProxyServiceName, ProxyDeploymentName,
    InsightsConfigMapName, URL.mk.injEq, true_and]
  apply String.ext
  simp [String.data_append]

theorem escapeHost_foldr_safe (l : List Char)
    (h : ∀ c ∈ l, c.toNat < 0x80 ∧ shouldEscapeHost c.toNat = false) :
    l.foldr (fun c acc => escapeHostRune c ++ acc) [] = l := by
  induction l with
  | nil => rfl
  | cons c l ih =>
    have hc := h c (List.mem_cons_self c l)
    have hl := ih (fun d hd => h d (List.mem_cons_of_mem c hd))
    have hr : escapeHostRune c = [c] := by
      unfold escapeHostRune
      rw [if_pos hc]
    rw [List.foldr_cons, hl, hr]
    rfl

theorem escapeHost_foldr_acc (l acc : List Char) :
    l.foldr (fun c acc => escapeHostRune c ++ acc) acc =
      l.foldr (fun c acc => escapeHostRune c ++ acc) [] ++ acc := by
  induction l with
  | nil => rfl
  | cons c l ih => simp only [List.foldr_cons, ih, List.append_assoc]

theorem escapeHost_foldr_append (l1 l2 : List Char) :
    (l1 ++ l2).foldr (fun c acc => escapeHostRune c ++ acc) [] =
      l1.foldr (fun c acc => escapeHostRune c ++ acc) [] ++
        l2.foldr (fun c acc => escapeHostRune c ++ acc) [] := by
  rw [List.foldr_append, escapeHost_foldr_acc]

theorem escapeBytes_length (bs : List Nat) :
    (bs.foldr (fun b acc => escapeByte b ++ acc) []).length = 3 * bs.length := by
  induction bs with
  | nil => rfl
  | cons b bs ih =>
    have hb : (escapeByte b).length = 3 := rfl
    simp only [List.foldr_cons, List.length_append, ih, List.length_cons, hb]
    omega

theorem utf8Bytes_length_pos (c : Char) : 1 ≤ (utf8Bytes c).length := by
  unfold utf8Bytes
  dsimp only
  split_ifs <;> simp

theorem escapeHostRune_length (c : Char) :
    1 ≤ (escapeHostRune c).length ∧
    (¬ (c.toNat < 0x80 ∧ shouldEscapeHost c.toNat = false) → 3 ≤ (escapeHostRune c).length) := by
  unfold escapeHostRune
  have hb := utf8Bytes_length_pos c
  split_ifs with h
  · exact ⟨by simp, fun hn => absurd h hn⟩
  · rw [escapeBytes_length]
    exact ⟨by omega, fun _ => by omega⟩

theorem escapeHost_foldr_length (l : List Char) :
    l.length ≤ (l.foldr (fun c acc => escapeHostRune c ++ acc) []).length := by
  induction l with
  | nil => simp
  | cons c l ih =>
    have hc := (escapeHostRune_length c).1
    simp only [List.foldr_cons, List.length_append, List.length_cons]
    omega

theorem escapeHost_foldr_fixed (l : List Char)
    (h : l.foldr (fun c acc => escapeHostRune c ++ acc) [] = l) :
    ∀ c ∈ l, c.toNat < 0x80 ∧ shouldEscapeHost c.toNat = false := by
  induction l with
  | nil => intro c hc; cases hc
  | cons d l ih =>
    have hlen := congrArg List.length h
    have hl := escapeHost_foldr_length l
    have hd := escapeHostRune_length d
    simp only [List.foldr_cons, List.length_append, List.length_cons] at hlen
    by_cases hsafe : d.toNat < 0x80 ∧ shouldEscapeHost d.toNat = false
    · have hr : escapeHostRune d = [d] := by
        unfold escapeHostRune
        rw [if_pos hsafe]
      rw [List.foldr_cons, hr] at h
      have ht : l.foldr (fun c acc => escapeHostRune c ++ acc) [] = l := by
        simpa using h
      intro c hc
      rcases List.mem_cons.mp hc with rfl | hc
      · exact hsafe
      · exact ih ht c hc
    · have := hd.2 hsafe
      omega

theorem escapeHost_eq_self_iff (N : String) : escapeHost N = N ↔ hostSafe N = true := by
  constructor
  · intro h
    have hdata : N.data.foldr (fun c acc => escapeHostRune c ++ acc) [] = N.data := by
      have := congrArg String.data h
      simpa [escapeHost] using this
    have hall := escapeHost_foldr_fixed N.data hdata
    unfold hostSafe
    rw [List.all_eq_true]
    intro c hc
    have := hall c hc
    simp [this.1, this.2]
  · intro h
    have hN : ∀ c ∈ N.data, c.toNat < 0x80 ∧ shouldEscapeHost c.toNat = false := by
      intro c hc
      have := List.all_eq_true.mp h c hc
      simpa using this
    unfold escapeHost
    apply String.ext
    exact escapeHost_foldr_safe N.data hN

theorem escapeHost_proxyHost (N : String) :
    escapeHost ("insights-proxy." ++ N ++ ".svc.cluster.local:8080") =
      "insights-proxy." ++ escapeHost N ++ ".svc.cluster.local:8080" := by
  have hA : "insights-proxy.".data.foldr (fun c acc => escapeHostRune c ++ acc) [] =
      "insights-proxy.".data := escapeHost_foldr_safe _ (by decide)
  have hB : ".svc.cluster.local:8080".data.foldr (fun c acc => escapeHostRune c ++ acc) [] =
      ".svc.cluster.local:8080".data := escapeHost_foldr_safe _ (by decide)
  apply String.ext
  simp only [escapeHost, String.data_append, escapeHost_foldr_append, hA, hB]

theorem proxyURL_string (N : String) :
    URL.string { Scheme := "http", Host := "insights-proxy." ++ N ++ ".svc.cluster.local:8080" } =
      "http://insights-proxy." ++ escapeHost N ++ ".svc.cluster.local:8080" := by
  have hhost : ("insights-proxy." ++ N ++ ".svc.cluster.local:8080" != "") = true := by
    rw [bne_iff_ne]
    intro h0
    have := congrArg String.data h0
    simp [String.data_append] at this
  have hscheme : (("http" : String) != "") = true := by decide
  simp only [URL.string, hhost, hscheme, if_true, Bool.or_self, escapeHost_proxyHost N]
  apply String.ext
  simp [String.data_append]

theorem proxyURL_string_eq_iff (N : String) :
    "http://insights-proxy." ++ escapeHost N ++ ".svc.cluster.local:8080" =
      "http://insights-proxy." ++ N ++ ".svc.cluster.local:8080" ↔ hostSafe N = true := by
  rw [← escapeHost_eq_self_iff]
  constructor
  · intro h
    have hd := congrArg String.data h
    simp only [String.data_append, List.append_assoc] at hd
    have h1 := List.append_cancel_left hd
    have h2 := List.append_cancel_right h1
    exact String.ext h2
  · intro h
    rw [h]

/-! ## Setup: missing context and the proxy endpoint -/

/-- C5: when the operator namespace, the operator name or the user-agent prefix is
empty, Setup returns (nil, nil) whatever the enablement flag, the collaborators and the
store are; it calls no collaborator (no owner read, create, delete or watch
registration), registers no controller and leaves the store as it was, so the marker
ConfigMap is neither created nor deleted. -/
theorem Setup_missing_context (i : InsightsIntegration) (f : Faults) (w : World)
    (h : i.opNamespace = "" ∨ i.opName = "" ∨ i.userAgentPrefix = "") :
    (i.Setup f w).1 = (none, none) ∧
    (i.Setup f w).2.calls = w.calls ∧
    (i.Setup f w).2.controllers = w.controllers ∧
    (i.Setup f w).2.objects = w.objects ∧
    (i.Setup f w).2.find "ConfigMap" i.opNamespace "insights-proxy" =
      w.find "ConfigMap" i.opNamespace "insights-proxy" := by
  unfold InsightsIntegration.Setup
  simp only [length_eq_zero_iff]
  by_cases h1 : i.opNamespace = ""
  · simp [h1, World.logInfo, World.find]
  · by_cases h2 : i.opName = ""
    · simp [h1, h2, World.logInfo, World.find]
    · have h3 : i.userAgentPrefix = "" := by tauto
      simp [h1, h2, h3, World.logInfo, World.find]

/-- C5, out of cluster as in the test: with an empty operator namespace and Insights
enabled, Setup returns (nil, nil), makes no call and keeps the store, marker included. -/
theorem Setup_missing_context_witness :
    (outOfClusterIntegration.opNamespace = "" ∨ outOfClusterIntegration.opName = "" ∨
      outOfClusterIntegration.userAgentPrefix = "") ∧
    outOfClusterIntegration.isInsightsEnabled = true ∧
    (outOfClusterIntegration.Setup {} markedWorld).1 = (none, none) ∧
    (outOfClusterIntegration.Setup {} markedWorld).2.calls = [] ∧
    (outOfClusterIntegration.Setup {} markedWorld).2.objects =
      [operatorDeployment, proxyConfigMap] :=
  have h := Setup_missing_context outOfClusterIntegration {} markedWorld (Or.inl rfl)
  ⟨Or.inl rfl, by decide, h.1, h.2.1, h.2.2.2.1⟩

/-- C6, as stated, fails: with operator namespace "a b" the enabled Setup succeeds and
returns the host "insights-proxy.a b.svc.cluster.local:8080", whose string form escapes
the blank and so is not "http://insights-proxy.a b.svc.cluster.local:8080". -/
theorem Setup_endpoint_string_counterexample :
    blankIntegration.opNamespace = "a b" ∧
    blankIntegration.opName ≠ "" ∧ blankIntegration.userAgentPrefix ≠ "" ∧
    blankIntegration.isInsightsEnabled = true ∧
    (blankIntegration.Setup {} blankWorld).1 =
      (some { Scheme := "http", Host := "insights-proxy.a b.svc.cluster.local:8080" }, none) ∧
    ((blankIntegration.Setup {} blankWorld).1.1.map URL.string) =
      some "http://insights-proxy.a%20b.svc.cluster.local:8080" ∧
    ((blankIntegration.Setup {} blankWorld).1.1.map URL.string) ≠
      some ("http://insights-proxy." ++ blankIntegration.opNamespace ++
        ".svc.cluster.local:8080") := by
  decide

/-- C6, amended: with non-empty operator namespace N, operator name and user-agent
prefix and the flag enabled, when both steps of Setup (adding the controller, creating
the marker) succeed, Setup returns a nil error and the URL with scheme "http" and host
"insights-proxy." ++ N ++ ".svc.cluster.local:8080". Its string form is
"http://insights-proxy." ++ escape N ++ ".svc.cluster.local:8080", where escape
percent-encodes every byte of N that a URL host does not keep; so it is
"http://insights-proxy.<N>.svc.cluster.local:8080" exactly when every rune of N is one
that a host keeps (ASCII letters, digits and host marks, as in any Kubernetes namespace
name), for instance "http://insights-proxy.test.svc.cluster.local:8080" for N = "test".
The URL depends on N only. -/
theorem Setup_endpoint (i : InsightsIntegration) (f : Faults) (w : World)
    (hns : i.opNamespace ≠ "") (hname : i.opName ≠ "") (hua : i.userAgentPrefix ≠ "")
    (hen : i.isInsightsEnabled = true)
    (hcontroller : (i.createInsightsController f w).1 = none)
    (hmarker : (i.createConfigMap f (i.createInsightsController f w).2).1 = none) :
    (i.Setup f w).1 =
      (some { Scheme := "http"
              Host := "insights-proxy." ++ i.opNamespace ++ ".svc.cluster.local:8080" },
       none) ∧
    ((i.Setup f w).1.1.map URL.string) =
      some ("http://insights-proxy." ++ escapeHost i.opNamespace ++
        ".svc.cluster.local:8080") ∧
    (((i.Setup f w).1.1.map URL.string) =
        some ("http://insights-proxy." ++ i.opNamespace ++ ".svc.cluster.local:8080") ↔
      hostSafe i.opNamespace = true) ∧
    URL.string { Scheme := "http", Host := "insights-proxy." ++ "test" ++ ".svc.cluster.local:8080" }
      = "http://insights-proxy.test.svc.cluster.local:8080" ∧
    (∀ j : InsightsIntegration, j.opNamespace = i.opNamespace → j.getProxyURL = i.getProxyURL) := by
  have hm : (i.createConfigMap f w).1 = none := by
    rw [← createConfigMap_fst_congr i f _ w (createInsightsController_objects i f w)]
    exact hmarker
  have hres := Setup_enabled_fst i f w hns hname hua hen
  rw [hcontroller, hm] at hres
  simp only [getProxyURL_eq] at hres
  have hstr : ((i.Setup f w).1.1.map URL.string) =
      some ("http://insights-proxy." ++ escapeHost i.opNamespace ++
        ".svc.cluster.local:8080") := by
    rw [hres]
    simp only [Option.map_some']
    rw [proxyURL_string]
  refine ⟨hres, hstr, ?_, by decide, ?_⟩
  · rw [hstr, Option.some.injEq]
    exact proxyURL_string_eq_iff i.opNamespace
  · intro j hj
    rw [getProxyURL_eq, getProxyURL_eq, hj]

/-- C6, amended, at the test's inputs: in namespace "test" with the operator deployment
in the store, Setup returns the URL whose string form is
"http://insights-proxy.test.svc.cluster.local:8080". -/
theorem Setup_endpoint_witness :
    testIntegration.opNamespace ≠ "" ∧ testIntegration.opName ≠ "" ∧
    testIntegration.userAgentPrefix ≠ "" ∧ testIntegration.isInsightsEnabled = true ∧
    (testIntegration.createInsightsController {} testWorld).1 = none ∧
    (testIntegration.createConfigMap {}
      (testIntegration.createInsightsController {} testWorld).2).1 = none ∧
    hostSafe testIntegration.opNamespace = true ∧
    (testIntegration.Setup {} testWorld).1.2 = none ∧
    ((testIntegration.Setup {} testWorld).1.1.map URL.string) =
      some "http://insights-proxy.test.svc.cluster.local:8080" :=
  have h := Setup_endpoint testIntegration {} testWorld (by decide) (by decide) (by decide)
    (by decide) (by decide) (by decide)
  ⟨by decide, by decide, by decide, by decide, by decide, by decide, by decide,
    congrArg Prod.snd h.1, h.2.2.1.mpr (by decide)⟩

/-! ## Setup: the enabled path -/

/-- C9: with non-empty context values and the flag enabled, Setup returns an error
exactly when construction of the reconciler fails, or registration with the manager
fails, or the read of the operator deployment fails, or attaching the owner reference
fails, or the create of the marker fails with an error other than already-exists. The
first such failure is returned unchanged with a nil endpoint; an already-exists result
of the create, like a successful create, gives the endpoint and a nil error; a
not-found answer to the owner read is an error like any other. -/
theorem Setup_enabled_errors (i : InsightsIntegration) (f : Faults) (w : World)
    (hns : i.opNamespace ≠ "") (hname : i.opName ≠ "") (hua : i.userAgentPrefix ≠ "")
    (hen : i.isInsightsEnabled = true) :
    let built := NewInsightsReconciler i.reconcilerConfig
    let read := (w.Get f.get "Deployment" i.opNamespace i.opName).1
    let attach := fun owner => SetControllerReference f.setControllerReference owner i.marker
    let created := fun cm => (w.Create f.create cm).1
    let url : URL :=
      { Scheme := "http", Host := "insights-proxy." ++ i.opNamespace ++ ".svc.cluster.local:8080" }
    ((i.Setup f w).1.2 ≠ none ↔
      (∃ e, built = .error e) ∨ (∃ e, f.complete = some e) ∨ (∃ e, read = .error e) ∨
      (∃ owner e, read = .ok owner ∧ attach owner = .error e) ∨
      (∃ owner cm e, read = .ok owner ∧ attach owner = .ok cm ∧ created cm = some e ∧
        IsAlreadyExists e = false)) ∧
    (∀ e, built = .error e → (i.Setup f w).1 = (none, some e)) ∧
    (∀ r e, built = .ok r → f.complete = some e → (i.Setup f w).1 = (none, some e)) ∧
    (∀ r e, built = .ok r → f.complete = none → read = .error e →
      (i.Setup f w).1 = (none, some e)) ∧
    (∀ r owner e, built = .ok r → f.complete = none → read = .ok owner →
      attach owner = .error e → (i.Setup f w).1 = (none, some e)) ∧
    (∀ r owner cm e, built = .ok r → f.complete = none → read = .ok owner →
      attach owner = .ok cm → created cm = some e → IsAlreadyExists e = false →
      (i.Setup f w).1 = (none, some e)) ∧
    (∀ r owner cm e, built = .ok r → f.complete = none → read = .ok owner →
      attach owner = .ok cm → created cm = some e → IsAlreadyExists e = true →
      (i.Setup f w).1 = (some url, none)) ∧
    (∀ r owner cm, built = .ok r → f.complete = none → read = .ok owner →
      attach owner = .ok cm → created cm = none → (i.Setup f w).1 = (some url, none)) ∧
    (∀ r, built = .ok r → f.complete = none → f.get = none →
      w.find "Deployment" i.opNamespace i.opName = none →
      ∃ e, IsNotFound e = true ∧ (i.Setup f w).1 = (none, some e)) := by
  have hres := Setup_enabled_fst i f w hns hname hua hen
  rw [createInsightsController_fst, createConfigMap_fst, getProxyURL_eq] at hres
  dsimp only
  have hnf : ∀ r, NewInsightsReconciler i.reconcilerConfig = .ok r → f.complete = none →
      f.get = none → w.find "Deployment" i.opNamespace i.opName = none →
      ∃ e, IsNotFound e = true ∧ (i.Setup f w).1 = (none, some e) := by
    intro r hb hc hg hfind
    rw [hb] at hres
    simp only [hc] at hres
    have hread : (w.Get f.get "Deployment" i.opNamespace i.opName).1 =
        .error (.status "NotFound" 404 ("Deployment" ++ " \"" ++ i.opName ++ "\" not found")) := by
      simp only [World.Get, hg, hfind]
    rw [hread] at hres
    exact ⟨.status "NotFound" 404 _, rfl, hres⟩
  refine ⟨?_, ?_, ?_, ?_, ?_, ?_, ?_, ?_, hnf⟩
  all_goals
    rcases hb : NewInsightsReconciler i.reconcilerConfig with e0 | r0
    · simp [hb] at hres
      simp [hres]
    · rcases hc : f.complete with _ | e1
      · rcases hr : (w.Get f.get "Deployment" i.opNamespace i.opName).1 with e2 | owner
        · simp [hb, hc, hr] at hres
          simp [hres]
        · rcases ha : SetControllerReference f.setControllerReference owner i.marker with
            e3 | cm
          · simp [hb, hc, hr, ha] at hres
            first | (simp [hres, ha]; done) | (simp [hres]; intros; subst_vars; simp_all)
          · rcases hcr : (w.Create f.create cm).1 with _ | e4
            · simp [hb, hc, hr, ha, hcr, IgnoreAlreadyExists] at hres
              first
                | (simp [hres, ha, hcr]; done)
                | (simp [hres]; intros; subst_vars; simp_all)
            · cases hae : IsAlreadyExists e4
              · simp [hb, hc, hr, ha, hcr, IgnoreAlreadyExists, hae] at hres
                first
                  | (simp [hres, ha, hcr, hae]; done)
                  | (simp [hres]; intros; subst_vars; simp_all)
              · simp [hb, hc, hr, ha, hcr, IgnoreAlreadyExists, hae] at hres
                first
                  | (simp [hres, ha, hcr, hae]; done)
                  | (simp [hres]; intros; subst_vars; simp_all)
      · simp [hb, hc] at hres
        simp [hres]

/-- C9, at the test's inputs: a permission failure of the create is returned unchanged
with a nil endpoint, and without the operator deployment in the store the not-found
answer to the owner read is returned as the error. -/
theorem Setup_enabled_errors_witness :
    testIntegration.opNamespace ≠ "" ∧ testIntegration.opName ≠ "" ∧
    testIntegration.userAgentPrefix ≠ "" ∧ testIntegration.isInsightsEnabled = true ∧
    (testIntegration.Setup { create := some forbidden } testWorld).1 = (none, some forbidden) ∧
    (testIntegration.Setup { create := some forbidden } testWorld).1.2 ≠ none ∧
    (∃ e, IsNotFound e = true ∧ (testIntegration.Setup {} emptyWorld).1 = (none, some e)) :=
  have h := Setup_enabled_errors testIntegration { create := some forbidden } testWorld
    (by decide) (by decide) (by decide) (by decide)
  have hres : (testIntegration.Setup { create := some forbidden } testWorld).1 =
      (none, some forbidden) := h.2.2.2.2.2.1 _ _ _ _ rfl rfl rfl rfl rfl rfl
  have hnf := (Setup_enabled_errors testIntegration {} emptyWorld
    (by decide) (by decide) (by decide) (by decide)).2.2.2.2.2.2.2.2 _ rfl rfl rfl rfl
  ⟨by decide, by decide, by decide, by decide, hres, by rw [hres]; simp, hnf⟩

/-! ## Setup: the disabled path -/

theorem deleteConfigMap_fst (i : InsightsIntegration) (f : Faults) (w : World) :
    (i.deleteConfigMap f w).1 = IgnoreNotFound (w.Delete f.delete i.marker).1 := by
  unfold InsightsIntegration.deleteConfigMap
  dsimp only
  rcases w.Delete f.delete i.marker with ⟨_ | e, w1⟩ <;> rfl

theorem World.Delete_calls (w : World) (fault : Option Error) (obj : Object) :
    (w.Delete fault obj).2.calls = w.calls ++ [.delete obj] := by
  unfold World.Delete World.call
  cases fault with
  | some e => rfl
  | none => cases w.find obj.Kind obj.Namespace obj.Name <;> rfl

theorem deleteConfigMap_calls (i : InsightsIntegration) (f : Faults) (w : World) :
    (i.deleteConfigMap f w).2.calls = w.calls ++ [.delete i.marker] := by
  have h := World.Delete_calls w f.delete i.marker
  unfold InsightsIntegration.deleteConfigMap
  dsimp only
  rcases hd : w.Delete f.delete i.marker with ⟨_ | e, w1⟩ <;> rw [hd] at h <;> exact h

theorem Setup_disabled_eq (i : InsightsIntegration) (f : Faults) (w : World)
    (hns : i.opNamespace ≠ "") (hname : i.opName ≠ "") (hua : i.userAgentPrefix ≠ "")
    (hdis : i.isInsightsEnabled = false) :
    (i.Setup f w).1 = (none, (i.deleteConfigMap f w).1) ∧
    (i.Setup f w).2.calls = (i.deleteConfigMap f w).2.calls ∧
    (i.Setup f w).2.objects = (i.deleteConfigMap f w).2.objects ∧
    (i.Setup f w).2.controllers = (i.deleteConfigMap f w).2.controllers := by
  unfold InsightsIntegration.Setup
  rw [if_neg (by rwa [length_eq_zero_iff]), if_neg (by rwa [length_eq_zero_iff]),
    if_neg (by rwa [length_eq_zero_iff]), hdis]
  simp only [Bool.false_eq_true, if_false]
  rcases i.deleteConfigMap f w with ⟨_ | e, w1⟩ <;> simp [World.logError]

theorem Setup_disabled_absent (i : InsightsIntegration) (f : Faults) (w : World)
    (hns : i.opNamespace ≠ "") (hname : i.opName ≠ "") (hua : i.userAgentPrefix ≠ "")
    (hdis : i.isInsightsEnabled = false) (hf : f.delete = none)
    (habs : w.find "ConfigMap" i.opNamespace "insights-proxy" = none) :
    (i.Setup f w).1 = (none, none) ∧ (i.Setup f w).2.objects = w.objects := by
  have h := Setup_disabled_eq i f w hns hname hua hdis
  have hfind : w.find i.marker.Kind i.marker.Namespace i.marker.Name = none := habs
  have hd : w.Delete f.delete i.marker =
      (some (.status "NotFound" 404 (i.marker.Kind ++ " \"" ++ i.marker.Name ++ "\" not found")),
        w.call (.delete i.marker)) := by
    simp only [World.Delete, hf, hfind]
  have hdc : i.deleteConfigMap f w = (none, w.call (.delete i.marker)) := by
    unfold InsightsIntegration.deleteConfigMap
    dsimp only
    rw [hd]
    rfl
  rw [hdc] at h
  exact ⟨h.1, h.2.2.1⟩

theorem SetupAll_disabled_absent (i : InsightsIntegration)
    (hns : i.opNamespace ≠ "") (hname : i.opName ≠ "") (hua : i.userAgentPrefix ≠ "")
    (hdis : i.isInsightsEnabled = false) (fs : List Faults) :
    ∀ w : World, (∀ g ∈ fs, g.delete = none) →
      w.find "ConfigMap" i.opNamespace "insights-proxy" = none →
      (i.SetupAll fs w).1 = List.replicate fs.length (none, none) := by
  induction fs with
  | nil => intro w _ _; rfl
  | cons g gs ih =>
    intro w hg habs
    have h1 := Setup_disabled_absent i g w hns hname hua hdis
      (hg g (List.mem_cons_self g gs)) habs
    have habs1 : (i.Setup g w).2.find "ConfigMap" i.opNamespace "insights-proxy" = none := by
      unfold World.find
      rw [h1.2]
      exact habs
    have h2 := ih (i.Setup g w).2 (fun g1 hg1 => hg g1 (List.mem_cons_of_mem g hg1)) habs1
    simp only [InsightsIntegration.SetupAll, h1.1, h2, List.length_cons, List.replicate_succ]

/-- C10: with non-empty context values and the flag not enabled, Setup issues one
delete, of the ConfigMap "insights-proxy" in the operator namespace, and returns
(nil, nil) exactly when that delete succeeds or reports not-found (an error that
`apierrors.IsNotFound` accepts: reason NotFound, or an unknown reason with code 404);
any other error of the delete is returned unchanged with a nil endpoint. So when the
marker is absent and the deletes are answered by the store, any number of consecutive
invocations all return (nil, nil). -/
theorem Setup_disabled_result (i : InsightsIntegration) (f : Faults) (w : World)
    (hns : i.opNamespace ≠ "") (hname : i.opName ≠ "") (hua : i.userAgentPrefix ≠ "")
    (hdis : i.isInsightsEnabled = false) :
    let deleted := (w.Delete f.delete i.marker).1
    i.marker = { Kind := "ConfigMap", Namespace := i.opNamespace, Name := "insights-proxy" } ∧
    (i.Setup f w).2.calls = w.calls ++ [.delete i.marker] ∧
    ((i.Setup f w).1 = (none, none) ↔
      deleted = none ∨ ∃ e, deleted = some e ∧ IsNotFound e = true) ∧
    (∀ e, deleted = some e → IsNotFound e = false → (i.Setup f w).1 = (none, some e)) ∧
    (∀ fs : List Faults, (∀ g ∈ fs, g.delete = none) →
      w.find "ConfigMap" i.opNamespace "insights-proxy" = none →
      (i.SetupAll fs w).1 = List.replicate fs.length (none, none)) := by
  have h := Setup_disabled_eq i f w hns hname hua hdis
  have hfst := deleteConfigMap_fst i f w
  dsimp only
  refine ⟨rfl, ?_, ?_, ?_, ?_⟩
  · rw [h.2.1, deleteConfigMap_calls]
  · rw [h.1, hfst]
    rcases (w.Delete f.delete i.marker).1 with _ | e
    · simp [IgnoreNotFound]
    · cases hnf : IsNotFound e <;> simp [IgnoreNotFound, hnf]
  · intro e he hnf
    rw [h.1, hfst, he]
    simp [IgnoreNotFound, hnf]
  · intro fs hfs habs
    exact SetupAll_disabled_absent i hns hname hua hdis fs w hfs habs

/-- C10, at the test's inputs: with Insights disabled and the marker absent, three
consecutive invocations return (nil, nil); a permission failure of the delete is
returned as the error; a delete answered with code 404 and no reason counts as
not-found and gives (nil, nil). -/
theorem Setup_disabled_result_witness :
    disabledIntegration.opNamespace ≠ "" ∧ disabledIntegration.opName ≠ "" ∧
    disabledIntegration.userAgentPrefix ≠ "" ∧ disabledIntegration.isInsightsEnabled = false ∧
    (disabledIntegration.SetupAll [{}, {}, {}] testWorld).1 =
      [(none, none), (none, none), (none, none)] ∧
    (disabledIntegration.Setup { delete := some forbidden } testWorld).1 =
      (none, some forbidden) ∧
    (disabledIntegration.Setup { delete := some bareNotFound } markedWorld).1 = (none, none) :=
  have h := Setup_disabled_result disabledIntegration { delete := some forbidden } testWorld
    (by decide) (by decide) (by decide) (by decide)
  have h404 := Setup_disabled_result disabledIntegration { delete := some bareNotFound }
    markedWorld (by decide) (by decide) (by decide) (by decide)
  ⟨by decide, by decide, by decide, by decide,
    h.2.2.2.2 [{}, {}, {}] (by decide) (by decide), h.2.2.2.1 forbidden rfl rfl,
    h404.2.2.1.mpr (Or.inr ⟨bareNotFound, rfl, rfl⟩)⟩

/-! ## Setup: its result, store and calls, branch by branch -/

theorem IsAlreadyExists_status (code : Nat) (msg : String) :
    IsAlreadyExists (.status "AlreadyExists" code msg) = true := rfl

theorem IsNotFound_status (code : Nat) (msg : String) :
    IsNotFound (.status "NotFound" code msg) = true := rfl

theorem World.find_congr (w1 w2 : World) (h : w1.objects = w2.objects) (kind ns name : String) :
    w1.find kind ns name = w2.find kind ns name := by
  unfold World.find
  rw [h]

theorem Setup_inert (i : InsightsIntegration) (f : Faults) (w : World)
    (h : i.opNamespace = "" ∨ i.opName = "" ∨ i.userAgentPrefix = "") :
    (i.Setup f w).1 = (none, none) ∧ (i.Setup f w).2.objects = w.objects ∧
    (i.Setup f w).2.calls = w.calls := by
  unfold InsightsIntegration.Setup
  simp only [length_eq_zero_iff]
  by_cases h1 : i.opNamespace = ""
  · simp [h1, World.logInfo]
  · by_cases h2 : i.opName = ""
    · simp [h1, h2, World.logInfo]
    · have h3 : i.userAgentPrefix = "" := by tauto
      simp [h1, h2, h3, World.logInfo]

theorem Setup_enabled_flat (i : InsightsIntegration) (f : Faults) (w : World)
    (hns : i.opNamespace ≠ "") (hname : i.opName ≠ "") (hua : i.userAgentPrefix ≠ "")
    (hen : i.isInsightsEnabled = true) :
    match NewInsightsReconciler i.reconcilerConfig with
    | .error e =>
      (i.Setup f w).1 = (none, some e) ∧ (i.Setup f w).2.objects = w.objects ∧
      (i.Setup f w).2.calls = w.calls
    | .ok _ =>
      match f.complete with
      | some e =>
        (i.Setup f w).1 = (none, some e) ∧ (i.Setup f w).2.objects = w.objects ∧
        (i.Setup f w).2.calls = w.calls ++ [registerWatches]
      | none =>
        match (w.Get f.get "Deployment" i.opNamespace i.opName).1 with
        | .error e =>
          (i.Setup f w).1 = (none, some e) ∧ (i.Setup f w).2.objects = w.objects ∧
          (i.Setup f w).2.calls = w.calls ++ [registerWatches, i.readOwner]
        | .ok owner =>
          match SetControllerReference f.setControllerReference owner i.marker with
          | .error e =>
            (i.Setup f w).1 = (none, some e) ∧ (i.Setup f w).2.objects = w.objects ∧
            (i.Setup f w).2.calls = w.calls ++ [registerWatches, i.readOwner]
          | .ok cm =>
            (i.Setup f w).2.calls = w.calls ++ [registerWatches, i.readOwner, .create cm] ∧
            match f.create with
            | some e =>
              (i.Setup f w).1 =
                (if IsAlreadyExists e then (some i.getProxyURL, none) else (none, some e)) ∧
              (i.Setup f w).2.objects = w.objects
            | none =>
              (i.Setup f w).1 = (some i.getProxyURL, none) ∧
              match w.find cm.Kind cm.Namespace cm.Name with
              | some _ => (i.Setup f w).2.objects = w.objects
              | none => (i.Setup f w).2.objects = w.objects ++ [cm] := by
  unfold InsightsIntegration.Setup
  rw [if_neg (by rwa [length_eq_zero_iff]), if_neg (by rwa [length_eq_zero_iff]),
    if_neg (by rwa [length_eq_zero_iff]), if_pos hen]
  unfold InsightsIntegration.createInsightsController InsightsReconciler.SetupWithManager
    InsightsIntegration.createConfigMap
  simp only [World.Get, World.Create, World.find, World.call, World.logError, World.logInfo,
    registerWatches, InsightsIntegration.readOwner]
  rcases hb : NewInsightsReconciler i.reconcilerConfig with e0 | r0
  · simp
  · rcases hc : f.complete with _ | e1
    · rcases hg : f.get with _ | e2
      · rcases hfd : List.find? (Object.isAt "Deployment" i.opNamespace i.opName) w.objects with
          _ | owner
        · simp [hfd]
        · simp only [hfd]
          rcases ha : SetControllerReference f.setControllerReference owner i.marker with
            e3 | cm
          · simp
          · rcases hcr : f.create with _ | e4
            · rcases hf : List.find? (Object.isAt cm.Kind cm.Namespace cm.Name) w.objects with
                _ | found
              · simp [IgnoreAlreadyExists, hf]
              · simp [IgnoreAlreadyExists, IsAlreadyExists_status, hf]
            · cases hae : IsAlreadyExists e4 <;> simp [IgnoreAlreadyExists, hae]
      · simp
    · simp

theorem Setup_disabled_flat (i : InsightsIntegration) (f : Faults) (w : World)
    (hns : i.opNamespace ≠ "") (hname : i.opName ≠ "") (hua : i.userAgentPrefix ≠ "")
    (hdis : i.isInsightsEnabled = false) :
    (i.Setup f w).2.calls = w.calls ++ [.delete i.marker] ∧
    match f.delete with
    | some e =>
      (i.Setup f w).1 = (none, IgnoreNotFound (some e)) ∧ (i.Setup f w).2.objects = w.objects
    | none =>
      (i.Setup f w).1 = (none, none) ∧
      match w.find "ConfigMap" i.opNamespace "insights-proxy" with
      | none => (i.Setup f w).2.objects = w.objects
      | some _ =>
        (i.Setup f w).2.objects =
          w.objects.filter (fun o => !(Object.isAt "ConfigMap" i.opNamespace "insights-proxy" o)) := by
  unfold InsightsIntegration.Setup
  rw [if_neg (by rwa [length_eq_zero_iff]), if_neg (by rwa [length_eq_zero_iff]),
    if_neg (by rwa [length_eq_zero_iff]), hdis]
  unfold InsightsIntegration.deleteConfigMap
  simp only [World.Delete, World.find, World.call, World.logError, World.logInfo,
    InsightsIntegration.marker, InsightsConfigMapName, Bool.false_eq_true, if_false]
  rcases hd : f.delete with _ | e
  · rcases hf : List.find? (Object.isAt "ConfigMap" i.opNamespace "insights-proxy") w.objects with
      _ | found
    · simp [IgnoreNotFound, IsNotFound_status, hf]
    · simp [IgnoreNotFound, hf]
  · cases hnf : IsNotFound e <;> simp [IgnoreNotFound, hnf]

theorem Object.isAt_iff (kind ns name : String) (o : Object) :
    Object.isAt kind ns name o = true ↔ o.Kind = kind ∧ o.Namespace = ns ∧ o.Name = name := by
  simp [Object.isAt, and_assoc]

theorem World.find_some (w : World) (kind ns name : String) (o : Object)
    (h : w.find kind ns name = some o) :
    o ∈ w.objects ∧ o.Kind = kind ∧ o.Namespace = ns ∧ o.Name = name := by
  unfold World.find at h
  exact ⟨List.mem_of_find?_eq_some h, (Object.isAt_iff kind ns name o).mp (List.find?_some h)⟩

theorem find?_filter_not (p : Object → Bool) (l : List Object) :
    (l.filter (fun o => !p o)).find? p = none := by
  rw [List.find?_eq_none]
  intro x hx
  have := (List.mem_filter.mp hx).2
  simpa using this

theorem SetControllerReference_fresh (fault : Option Error) (owner c cm : Object)
    (hrefs : c.OwnerReferences = [])
    (h : SetControllerReference fault owner c = .ok cm) :
    fault = none ∧ cm = { c with OwnerReferences := [controllerRef owner] } := by
  unfold SetControllerReference at h
  cases fault with
  | some e => simp at h
  | none =>
    simp only [hrefs, List.find?_nil, List.nil_append] at h
    split_ifs at h
    simp only [Except.ok.injEq] at h
    exact ⟨rfl, h.symm⟩

theorem SetControllerReference_marker (i : InsightsIntegration) (owner : Object)
    (hns : i.opNamespace ≠ "") (hown : owner.Namespace = i.opNamespace) :
    SetControllerReference none owner i.marker = .ok (i.ownedMarker owner) := by
  unfold SetControllerReference
  simp [InsightsIntegration.marker, InsightsIntegration.ownedMarker, hown, hns, controllerRef,
    InsightsConfigMapName]

theorem Faults.external_create (f : Faults) (h : f.external = true) (e : Error)
    (he : f.create = some e) : IsAlreadyExists e = false := by
  simp [Faults.external, he] at h
  exact h.1

theorem Faults.external_delete (f : Faults) (h : f.external = true) (e : Error)
    (he : f.delete = some e) : IsNotFound e = false := by
  simp [Faults.external, he] at h
  exact h.2

theorem Setup_enabled_marker_present (i : InsightsIntegration) (f : Faults) (w : World)
    (hns : i.opNamespace ≠ "") (hname : i.opName ≠ "") (hua : i.userAgentPrefix ≠ "")
    (hen : i.isInsightsEnabled = true) (hext : f.external = true)
    (hok : (i.Setup f w).1.2 = none) :
    i.markerExists (i.Setup f w).2 = true := by
  have flat := Setup_enabled_flat i f w hns hname hua hen
  rcases hb : NewInsightsReconciler i.reconcilerConfig with e0 | r0
  · simp only [hb] at flat
    rw [flat.1] at hok
    simp at hok
  · rcases hc : f.complete with _ | e1
    · rcases hr : (w.Get f.get "Deployment" i.opNamespace i.opName).1 with e2 | owner
      · simp only [hb, hc, hr] at flat
        rw [flat.1] at hok
        simp at hok
      · rcases ha : SetControllerReference f.setControllerReference owner i.marker with e3 | cm
        · simp only [hb, hc, hr, ha] at flat
          rw [flat.1] at hok
          simp at hok
        · have hcm := (SetControllerReference_fresh _ owner i.marker cm rfl ha).2
          have hkey : Object.isAt "ConfigMap" i.opNamespace "insights-proxy" cm = true := by
            rw [Object.isAt_iff, hcm]
            exact ⟨rfl, rfl, rfl⟩
          have hk : cm.Kind = "ConfigMap" ∧ cm.Namespace = i.opNamespace ∧
              cm.Name = "insights-proxy" := (Object.isAt_iff _ _ _ cm).mp hkey
          rcases hcr : f.create with _ | e4
          · simp only [hb, hc, hr, ha, hcr, hk.1, hk.2.1, hk.2.2] at flat
            unfold InsightsIntegration.markerExists World.find
            rcases hf : w.find "ConfigMap" i.opNamespace "insights-proxy" with _ | found
            · simp only [hf] at flat
              rw [flat.2.2, List.find?_append]
              have hf1 : List.find? (Object.isAt "ConfigMap" i.opNamespace "insights-proxy")
                  w.objects = none := hf
              simp [hf1, List.find?, hkey]
            · simp only [hf] at flat
              rw [flat.2.2]
              have hf1 : List.find? (Object.isAt "ConfigMap" i.opNamespace "insights-proxy")
                  w.objects = some found := hf
              simp [hf1]
          · have hae := Faults.external_create f hext e4 hcr
            simp only [hb, hc, hr, ha, hcr, hae] at flat
            rw [flat.2.1] at hok
            simp at hok
    · simp only [hb, hc] at flat
      rw [flat.1] at hok
      simp at hok

theorem Setup_disabled_marker_absent (i : InsightsIntegration) (f : Faults) (w : World)
    (hns : i.opNamespace ≠ "") (hname : i.opName ≠ "") (hua : i.userAgentPrefix ≠ "")
    (hdis : i.isInsightsEnabled = false) (hext : f.external = true)
    (hok : (i.Setup f w).1.2 = none) :
    i.markerExists (i.Setup f w).2 = false := by
  have flat := (Setup_disabled_flat i f w hns hname hua hdis).2
  unfold InsightsIntegration.markerExists World.find
  rcases hd : f.delete with _ | e
  · simp only [hd] at flat
    rcases hf : w.find "ConfigMap" i.opNamespace "insights-proxy" with _ | found
    · simp only [hf] at flat
      rw [flat.2]
      have hf1 : List.find? (Object.isAt "ConfigMap" i.opNamespace "insights-proxy")
          w.objects = none := hf
      simp [hf1]
    · simp only [hf] at flat
      rw [flat.2, find?_filter_not]
      rfl
  · have hnf := Faults.external_delete f hext e hd
    simp only [hd] at flat
    rw [flat.1] at hok
    simp [IgnoreNotFound, hnf] at hok

/-! ## Setup: the marker invariant -/

/-- C11, as stated, fails in four ways. With an empty operator namespace the flag is
true and no marker exists after Setup; with the flag true and a create refused by the
API server, Setup returns the error and no marker exists; with the flag false and a
delete refused by the API server, Setup returns the error and the marker still exists;
with the flag false and a delete answered with code 404 and no reason while the marker
is stored, Setup returns (nil, nil) and the marker still exists. -/
theorem Setup_marker_invariant_counterexample :
    (outOfClusterIntegration.isInsightsEnabled = true ∧
      (outOfClusterIntegration.Setup {} testWorld).1 = (none, none) ∧
      outOfClusterIntegration.markerExists (outOfClusterIntegration.Setup {} testWorld).2
        = false) ∧
    (testIntegration.isInsightsEnabled = true ∧
      (testIntegration.Setup { create := some forbidden } testWorld).1
        = (none, some forbidden) ∧
      testIntegration.markerExists
        (testIntegration.Setup { create := some forbidden } testWorld).2 = false) ∧
    (disabledIntegration.isInsightsEnabled = false ∧
      (disabledIntegration.Setup { delete := some forbidden } markedWorld).1
        = (none, some forbidden) ∧
      disabledIntegration.markerExists
        (disabledIntegration.Setup { delete := some forbidden } markedWorld).2 = true) ∧
    (disabledIntegration.isInsightsEnabled = false ∧
      (disabledIntegration.Setup { delete := some bareNotFound } markedWorld).1
        = (none, none) ∧
      disabledIntegration.markerExists
        (disabledIntegration.Setup { delete := some bareNotFound } markedWorld).2 = true) := by
  decide

/-- C11, amended: for every initial store state and every integration, when the
already-exists answer to a create and the not-found answer to a delete (reason NotFound,
or an unknown reason with code 404) come from the store: after a Setup invocation with
non-empty operator namespace, operator name and user-agent prefix that returns a nil
error, the marker ConfigMap "insights-proxy" exists in the operator namespace if and
only if the enablement flag evaluated to true at that invocation. A Setup invocation
with an empty context value returns (nil, nil) whatever the flag and leaves the store as
it was. -/
theorem Setup_marker_invariant (i : InsightsIntegration) (f : Faults) (w : World)
    (hext : f.external = true) :
    (i.opNamespace ≠ "" → i.opName ≠ "" → i.userAgentPrefix ≠ "" →
      (i.Setup f w).1.2 = none →
      (i.markerExists (i.Setup f w).2 = true ↔ i.isInsightsEnabled = true)) ∧
    (i.opNamespace = "" ∨ i.opName = "" ∨ i.userAgentPrefix = "" →
      (i.Setup f w).1 = (none, none) ∧ (i.Setup f w).2.objects = w.objects) := by
  refine ⟨fun hns hname hua hok => ?_, fun hctx => ?_⟩
  · cases hen : i.isInsightsEnabled
    · have h := Setup_disabled_marker_absent i f w hns hname hua hen hext hok
      simp [h]
    · have h := Setup_enabled_marker_present i f w hns hname hua hen hext hok
      simp [h]
  · exact ⟨(Setup_inert i f w hctx).1, (Setup_inert i f w hctx).2.1⟩

/-- C11, amended, at the test's inputs: the enabled Setup succeeds and the marker exists
afterwards; the disabled Setup on the store with the marker succeeds and the marker is
gone; out of cluster the store is kept. -/
theorem Setup_marker_invariant_witness :
    Faults.external {} = true ∧
    testIntegration.opNamespace ≠ "" ∧ testIntegration.opName ≠ "" ∧
    testIntegration.userAgentPrefix ≠ "" ∧
    (testIntegration.Setup {} testWorld).1.2 = none ∧
    testIntegration.markerExists (testIntegration.Setup {} testWorld).2 = true ∧
    (disabledIntegration.Setup {} markedWorld).1.2 = none ∧
    disabledIntegration.markerExists (disabledIntegration.Setup {} markedWorld).2 = false ∧
    (outOfClusterIntegration.Setup {} markedWorld).2.objects = markedWorld.objects :=
  have h1 := Setup_marker_invariant testIntegration {} testWorld (by decide)
  have h2 := Setup_marker_invariant disabledIntegration {} markedWorld (by decide)
  have h3 := Setup_marker_invariant outOfClusterIntegration {} markedWorld (by decide)
  ⟨by decide, by decide, by decide, by decide, by decide,
    (h1.1 (by decide) (by decide) (by decide) (by decide)).mpr (by decide),
    by decide,
    by
      have h := h2.1 (by decide) (by decide) (by decide) (by decide)
      cases hm : disabledIntegration.markerExists (disabledIntegration.Setup {} markedWorld).2
      · rfl
      · exact absurd (h.mp hm) (by decide),
    (h3.2 (Or.inl rfl)).2⟩

/-! ## Setup: idempotence when enabled -/

theorem NewInsightsReconciler_ok (config : InsightsReconcilerConfig)
    (hb : config.GetEnv "INSIGHTS_BACKEND_DOMAIN" ≠ "")
    (ht : config.GetEnv "RELATED_IMAGE_INSIGHTS_PROXY" ≠ "") :
    ∃ r, NewInsightsReconciler config = .ok r := by
  simp [NewInsightsReconciler, length_eq_zero_iff, EnvInsightsBackendDomain,
    EnvInsightsProxyImageTag, hb, ht]

theorem Setup_enabled_ok (i : InsightsIntegration) (f : Faults) (w : World) (owner : Object)
    (hns : i.opNamespace ≠ "") (hname : i.opName ≠ "") (hua : i.userAgentPrefix ≠ "")
    (hen : i.isInsightsEnabled = true)
    (hb : i.GetEnv "INSIGHTS_BACKEND_DOMAIN" ≠ "")
    (ht : i.GetEnv "RELATED_IMAGE_INSIGHTS_PROXY" ≠ "")
    (hc : f.complete = none) (hg : f.get = none) (hs : f.setControllerReference = none)
    (hcr : f.create = none)
    (hown : w.find "Deployment" i.opNamespace i.opName = some owner) :
    (i.Setup f w).1 = (some i.getProxyURL, none) ∧
    (i.Setup f w).2.calls =
      w.calls ++ [registerWatches, i.readOwner, .create (i.ownedMarker owner)] ∧
    match w.find "ConfigMap" i.opNamespace "insights-proxy" with
    | some _ => (i.Setup f w).2.objects = w.objects
    | none => (i.Setup f w).2.objects = w.objects ++ [i.ownedMarker owner] := by
  have flat := Setup_enabled_flat i f w hns hname hua hen
  obtain ⟨r, hr⟩ := NewInsightsReconciler_ok i.reconcilerConfig hb ht
  have hread : (w.Get f.get "Deployment" i.opNamespace i.opName).1 = .ok owner := by
    simp [World.Get, hg, hown]
  have hattach : SetControllerReference f.setControllerReference owner i.marker =
      .ok (i.ownedMarker owner) := by
    rw [hs]
    exact SetControllerReference_marker i owner hns (World.find_some w _ _ _ owner hown).2.2.1
  simp only [hr, hc, hread, hattach, hcr] at flat
  have hkey : w.find (i.ownedMarker owner).Kind (i.ownedMarker owner).Namespace
      (i.ownedMarker owner).Name = w.find "ConfigMap" i.opNamespace "insights-proxy" := rfl
  rw [hkey] at flat
  exact ⟨flat.2.1, flat.1, flat.2.2⟩

theorem World.count_eq_zero (w : World) (kind ns name : String)
    (h : w.find kind ns name = none) : w.count kind ns name = 0 := by
  unfold World.find at h
  unfold World.count
  rw [List.length_eq_zero, List.filter_eq_nil_iff]
  intro x hx
  have := List.find?_eq_none.mp h x hx
  simpa using this

theorem World.count_pos (w : World) (kind ns name : String) (o : Object)
    (h : w.find kind ns name = some o) : 1 ≤ w.count kind ns name := by
  have hmem := World.find_some w kind ns name o h
  unfold World.count
  have : o ∈ w.objects.filter (Object.isAt kind ns name) :=
    List.mem_filter.mpr ⟨hmem.1, (Object.isAt_iff kind ns name o).mpr hmem.2⟩
  exact List.length_pos_of_mem this

theorem ownedMarker_isAt (i : InsightsIntegration) (owner : Object) :
    Object.isAt "ConfigMap" i.opNamespace "insights-proxy" (i.ownedMarker owner) = true := by
  rw [Object.isAt_iff]
  exact ⟨rfl, rfl, rfl⟩

/-- C12: with non-empty context values, the required configuration present, the flag
enabled, the operator deployment in the store and collaborators that answer from the
store, two consecutive Setup invocations both return a nil error and the same endpoint;
the second leaves the store exactly as the first left it, with exactly one ConfigMap
"insights-proxy" in the operator namespace (the store holding at most one object per
key to begin with). -/
theorem Setup_enabled_idempotent (i : InsightsIntegration) (w : World)
    (hns : i.opNamespace ≠ "") (hname : i.opName ≠ "") (hua : i.userAgentPrefix ≠ "")
    (hen : i.isInsightsEnabled = true)
    (hb : i.GetEnv "INSIGHTS_BACKEND_DOMAIN" ≠ "")
    (ht : i.GetEnv "RELATED_IMAGE_INSIGHTS_PROXY" ≠ "")
    (hown : (w.find "Deployment" i.opNamespace i.opName).isSome = true)
    (hone : w.count "ConfigMap" i.opNamespace "insights-proxy" ≤ 1) :
    let url : URL :=
      { Scheme := "http", Host := "insights-proxy." ++ i.opNamespace ++ ".svc.cluster.local:8080" }
    (i.Setup {} w).1 = (some url, none) ∧
    (i.Setup {} (i.Setup {} w).2).1 = (some url, none) ∧
    (i.Setup {} (i.Setup {} w).2).2.objects = (i.Setup {} w).2.objects ∧
    (i.Setup {} w).2.count "ConfigMap" i.opNamespace "insights-proxy" = 1 ∧
    (i.Setup {} (i.Setup {} w).2).2.count "ConfigMap" i.opNamespace "insights-proxy" = 1 := by
  dsimp only
  rw [← getProxyURL_eq]
  obtain ⟨owner, howner⟩ := Option.isSome_iff_exists.mp hown
  have h1 := Setup_enabled_ok i {} w owner hns hname hua hen hb ht rfl rfl rfl rfl howner
  have hstate : (i.Setup {} w).2.find "Deployment" i.opNamespace i.opName = some owner ∧
      (∃ m, (i.Setup {} w).2.find "ConfigMap" i.opNamespace "insights-proxy" = some m) ∧
      (i.Setup {} w).2.count "ConfigMap" i.opNamespace "insights-proxy" = 1 := by
    have hd : List.find? (Object.isAt "Deployment" i.opNamespace i.opName) w.objects =
        some owner := howner
    rcases hf : w.find "ConfigMap" i.opNamespace "insights-proxy" with _ | found
    · have h0 := World.count_eq_zero w _ _ _ hf
      have hf1 : List.find? (Object.isAt "ConfigMap" i.opNamespace "insights-proxy")
          w.objects = none := hf
      simp only [hf] at h1
      unfold World.count at h0 ⊢
      unfold World.find
      rw [h1.2.2]
      refine ⟨by simp [List.find?_append, hd], ⟨i.ownedMarker owner, ?_⟩, ?_⟩
      · simp [List.find?_append, hf1, List.find?, ownedMarker_isAt]
      · simp [List.filter_append, h0, List.filter, ownedMarker_isAt]
    · have hpos := World.count_pos w _ _ _ found hf
      simp only [hf] at h1
      unfold World.count at hpos hone ⊢
      unfold World.find at hf ⊢
      rw [h1.2.2]
      exact ⟨hd, ⟨found, hf⟩, by omega⟩
  obtain ⟨hown1, ⟨m, hm1⟩, hcount1⟩ := hstate
  have h2 := Setup_enabled_ok i {} (i.Setup {} w).2 owner hns hname hua hen hb ht
    rfl rfl rfl rfl hown1
  simp only [hm1] at h2
  refine ⟨h1.1, h2.1, h2.2.2, hcount1, ?_⟩
  unfold World.count at hcount1 ⊢
  rw [h2.2.2]
  exact hcount1

/-- C12, at the test's inputs: from the store holding only the operator deployment, the
second Setup returns the same endpoint and the store keeps the deployment and one
marker. -/
theorem Setup_enabled_idempotent_witness :
    testIntegration.opNamespace ≠ "" ∧ testIntegration.opName ≠ "" ∧
    testIntegration.userAgentPrefix ≠ "" ∧ testIntegration.isInsightsEnabled = true ∧
    (testWorld.find "Deployment" "test" "insights-test-controller-manager").isSome = true ∧
    testWorld.count "ConfigMap" "test" "insights-proxy" ≤ 1 ∧
    (testIntegration.Setup {} (testIntegration.Setup {} testWorld).2).1 =
      (some { Scheme := "http", Host := "insights-proxy.test.svc.cluster.local:8080" }, none) ∧
    (testIntegration.Setup {} (testIntegration.Setup {} testWorld).2).2.objects =
      [operatorDeployment, testIntegration.ownedMarker operatorDeployment] :=
  have h := Setup_enabled_idempotent testIntegration testWorld (by decide) (by decide)
    (by decide) (by decide) (by decide) (by decide) (by decide) (by decide)
  ⟨by decide, by decide, by decide, by decide, by decide, by decide, h.2.1,
    h.2.2.1.trans (by decide)⟩

/-! ## Setup: from active to absent -/

/-- C13: a successful Setup with the flag enabled followed by a successful Setup with
the flag disabled, for the same non-empty operator name, namespace and user-agent
prefix, leaves no ConfigMap "insights-proxy" in the operator namespace (after the first
one the marker exists); and every successful disabled Setup, from whatever store, ends
with the marker absent. The delete is answered truthfully: an error that
`apierrors.IsNotFound` accepts (reason NotFound, or an unknown reason with code 404)
comes from the store finding no such object. -/
theorem Setup_enable_then_disable (i1 i2 : InsightsIntegration) (f1 f2 : Faults) (w : World)
    (hsame : i2.opName = i1.opName ∧ i2.opNamespace = i1.opNamespace ∧
      i2.userAgentPrefix = i1.userAgentPrefix)
    (hns : i1.opNamespace ≠ "") (hname : i1.opName ≠ "") (hua : i1.userAgentPrefix ≠ "")
    (hen : i1.isInsightsEnabled = true) (hdis : i2.isInsightsEnabled = false)
    (hext : f2.external = true)
    (hok1 : (i1.Setup f1 w).1.2 = none)
    (hok2 : (i2.Setup f2 (i1.Setup f1 w).2).1.2 = none) :
    (f1.external = true →
      ((i1.Setup f1 w).2.find "ConfigMap" i1.opNamespace "insights-proxy").isSome = true) ∧
    (i2.Setup f2 (i1.Setup f1 w).2).2.find "ConfigMap" i1.opNamespace "insights-proxy" = none ∧
    (∀ (f0 : Faults) (w0 : World), f0.external = true → (i2.Setup f0 w0).1.2 = none →
      (i2.Setup f0 w0).2.find "ConfigMap" i2.opNamespace "insights-proxy" = none) := by
  have hns2 : i2.opNamespace ≠ "" := by rw [hsame.2.1]; exact hns
  have hname2 : i2.opName ≠ "" := by rw [hsame.1]; exact hname
  have hua2 : i2.userAgentPrefix ≠ "" := by rw [hsame.2.2]; exact hua
  have hgen : ∀ (f0 : Faults) (w0 : World), f0.external = true → (i2.Setup f0 w0).1.2 = none →
      (i2.Setup f0 w0).2.find "ConfigMap" i2.opNamespace "insights-proxy" = none := by
    intro f0 w0 hext0 hok0
    have h := Setup_disabled_marker_absent i2 f0 w0 hns2 hname2 hua2 hdis hext0 hok0
    unfold InsightsIntegration.markerExists at h
    simpa using h
  refine ⟨fun hext1 => Setup_enabled_marker_present i1 f1 w hns hname hua hen hext1 hok1, ?_,
    hgen⟩
  rw [← hsame.2.1]
  exact hgen f2 _ hext hok2

/-- C13, at the test's inputs: Setup with Insights enabled creates the marker, and Setup
with Insights disabled on the resulting store removes it. -/
theorem Setup_enable_then_disable_witness :
    testIntegration.opNamespace ≠ "" ∧ testIntegration.isInsightsEnabled = true ∧
    disabledIntegration.isInsightsEnabled = false ∧
    (testIntegration.Setup {} testWorld).1.2 = none ∧
    (disabledIntegration.Setup {} (testIntegration.Setup {} testWorld).2).1.2 = none ∧
    ((testIntegration.Setup {} testWorld).2.find "ConfigMap" "test" "insights-proxy").isSome
      = true ∧
    (disabledIntegration.Setup {} (testIntegration.Setup {} testWorld).2).2.find
      "ConfigMap" "test" "insights-proxy" = none :=
  have h := Setup_enable_then_disable testIntegration disabledIntegration {} {} testWorld
    ⟨rfl, rfl, rfl⟩ (by decide) (by decide) (by decide) (by decide) (by decide) (by decide)
    (by decide) (by decide)
  ⟨by decide, by decide, by decide, by decide, by decide, h.1 (by decide), h.2.1⟩

/-! ## Setup: marker identity and ownership -/

/-- C15: when the operator deployment is in the store at (opName, opNamespace) and no
marker is, a successful enabled Setup reads that deployment and adds exactly one object
to the store: the ConfigMap "insights-proxy" in the operator namespace, without labels,
annotations or data, whose only owner reference is the controller reference to the
deployment that was read (its kind, name and UID). -/
theorem Setup_creates_marker (i : InsightsIntegration) (f : Faults) (w : World)
    (owner : Object)
    (hns : i.opNamespace ≠ "") (hname : i.opName ≠ "") (hua : i.userAgentPrefix ≠ "")
    (hen : i.isInsightsEnabled = true) (hext : f.external = true)
    (hown : w.find "Deployment" i.opNamespace i.opName = some owner)
    (habs : w.find "ConfigMap" i.opNamespace "insights-proxy" = none)
    (hok : (i.Setup f w).1.2 = none) :
    let cm : Object :=
      { Kind := "ConfigMap", Namespace := i.opNamespace, Name := "insights-proxy", UID := ""
        Labels := [], Annotations := [], Data := []
        OwnerReferences :=
          [{ APIVersion := "apps/v1", Kind := "Deployment", Name := i.opName
             UID := owner.UID, Controller := true, BlockOwnerDeletion := true }] }
    (w.Get f.get "Deployment" i.opNamespace i.opName).1 = .ok owner ∧
    (i.Setup f w).2.objects = w.objects ++ [cm] ∧
    (i.Setup f w).2.calls =
      w.calls ++ [.complete "insights" ["Secret", "Deployment", "Service"],
        .get "Deployment" i.opNamespace i.opName, .create cm] ∧
    (i.Setup f w).2.find "ConfigMap" i.opNamespace "insights-proxy" = some cm := by
  have flat := Setup_enabled_flat i f w hns hname hua hen
  have hmeta := World.find_some w _ _ _ owner hown
  have hcmeq : i.ownedMarker owner =
      { Kind := "ConfigMap", Namespace := i.opNamespace, Name := "insights-proxy", UID := ""
        Labels := [], Annotations := [], Data := []
        OwnerReferences :=
          [{ APIVersion := "apps/v1", Kind := "Deployment", Name := i.opName
             UID := owner.UID, Controller := true, BlockOwnerDeletion := true }] } := by
    simp [InsightsIntegration.ownedMarker, controllerRef, hmeta.2.1, hmeta.2.2.2]
  dsimp only
  rw [← hcmeq]
  rcases hb : NewInsightsReconciler i.reconcilerConfig with e0 | r0
  · simp only [hb] at flat
    rw [flat.1] at hok
    simp at hok
  · rcases hc : f.complete with _ | e1
    · rcases hg : f.get with _ | e2
      · have hread : (w.Get f.get "Deployment" i.opNamespace i.opName).1 = .ok owner := by
          simp [World.Get, hg, hown]
        rw [hg] at hread
        rcases ha : SetControllerReference f.setControllerReference owner i.marker with
          e3 | cm
        · simp only [hb, hc, hg, hread, ha] at flat
          rw [flat.1] at hok
          simp at hok
        · have hcm : cm = i.ownedMarker owner :=
            (SetControllerReference_fresh _ owner i.marker cm rfl ha).2
          subst hcm
          rcases hcr : f.create with _ | e4
          · simp only [hb, hc, hg, hread, ha, hcr] at flat
            have hkey : w.find (i.ownedMarker owner).Kind (i.ownedMarker owner).Namespace
                (i.ownedMarker owner).Name = none := habs
            simp only [hkey] at flat
            refine ⟨hread, flat.2.2, flat.1, ?_⟩
            unfold World.find
            rw [flat.2.2, List.find?_append]
            have hf1 : List.find? (Object.isAt "ConfigMap" i.opNamespace "insights-proxy")
                w.objects = none := habs
            simp [hf1, List.find?, ownedMarker_isAt]
          · have hae := Faults.external_create f hext e4 hcr
            simp only [hb, hc, hg, hread, ha, hcr, hae] at flat
            rw [flat.2.1] at hok
            simp at hok
      · have hread : (w.Get f.get "Deployment" i.opNamespace i.opName).1 = .error e2 := by
          simp [World.Get, hg]
        simp only [hb, hc, hread] at flat
        rw [flat.1] at hok
        simp at hok
    · simp only [hb, hc] at flat
      rw [flat.1] at hok
      simp at hok

/-- C15, at the test's inputs: the enabled Setup on the store holding only the operator
deployment adds the marker ConfigMap controlled by that deployment. -/
theorem Setup_creates_marker_witness :
    testIntegration.opNamespace ≠ "" ∧ testIntegration.isInsightsEnabled = true ∧
    testWorld.find "Deployment" "test" "insights-test-controller-manager"
      = some operatorDeployment ∧
    testWorld.find "ConfigMap" "test" "insights-proxy" = none ∧
    (testIntegration.Setup {} testWorld).1.2 = none ∧
    (testIntegration.Setup {} testWorld).2.objects =
      [operatorDeployment,
       { Kind := "ConfigMap", Namespace := "test", Name := "insights-proxy"
         OwnerReferences :=
          [{ APIVersion := "apps/v1", Kind := "Deployment"
             Name := "insights-test-controller-manager", UID := "uid-1"
             Controller := true, BlockOwnerDeletion := true }] }] :=
  have h := Setup_creates_marker testIntegration {} testWorld operatorDeployment
    (by decide) (by decide) (by decide) (by decide) (by decide) (by decide) (by decide)
    (by decide)
  ⟨by decide, by decide, by decide, by decide, by decide, h.2.1⟩

/-! ## Setup: collaborator calls and their order -/

theorem Setup_new_calls (i : InsightsIntegration) (f : Faults) (w : World) :
    ∃ new : List Call,
      (i.Setup f w).2.calls = w.calls ++ new ∧
      (new = [] ∨
       (new = [registerWatches] ∧ i.isInsightsEnabled = true ∧ ∃ e, f.complete = some e) ∨
       (new = [registerWatches, i.readOwner] ∧ i.isInsightsEnabled = true ∧
        f.complete = none) ∨
       (∃ owner, new = [registerWatches, i.readOwner, .create (i.ownedMarker owner)] ∧
        i.isInsightsEnabled = true ∧ f.complete = none ∧
        (w.Get f.get "Deployment" i.opNamespace i.opName).1 = .ok owner) ∨
       (new = [.delete i.marker] ∧ i.isInsightsEnabled = false)) := by
  by_cases hctx : i.opNamespace = "" ∨ i.opName = "" ∨ i.userAgentPrefix = ""
  · exact ⟨[], by simp [(Setup_inert i f w hctx).2.2], Or.inl rfl⟩
  · have hns : i.opNamespace ≠ "" := fun h => hctx (Or.inl h)
    have hname : i.opName ≠ "" := fun h => hctx (Or.inr (Or.inl h))
    have hua : i.userAgentPrefix ≠ "" := fun h => hctx (Or.inr (Or.inr h))
    cases hen : i.isInsightsEnabled
    · exact ⟨[.delete i.marker], (Setup_disabled_flat i f w hns hname hua hen).1,
        Or.inr (Or.inr (Or.inr (Or.inr ⟨rfl, rfl⟩)))⟩
    · have flat := Setup_enabled_flat i f w hns hname hua hen
      rcases hb : NewInsightsReconciler i.reconcilerConfig with e0 | r0
      · simp only [hb] at flat
        exact ⟨[], by simp [flat.2.2], Or.inl rfl⟩
      · rcases hc : f.complete with _ | e1
        · rcases hr : (w.Get f.get "Deployment" i.opNamespace i.opName).1 with e2 | owner
          · simp only [hb, hc, hr] at flat
            exact ⟨_, flat.2.2, Or.inr (Or.inr (Or.inl ⟨rfl, rfl, rfl⟩))⟩
          · rcases ha : SetControllerReference f.setControllerReference owner i.marker with
              e3 | cm
            · simp only [hb, hc, hr, ha] at flat
              exact ⟨_, flat.2.2, Or.inr (Or.inr (Or.inl ⟨rfl, rfl, rfl⟩))⟩
            · have hcm : cm = i.ownedMarker owner :=
                (SetControllerReference_fresh _ owner i.marker cm rfl ha).2
              subst hcm
              simp only [hb, hc, hr, ha] at flat
              exact ⟨_, flat.1, Or.inr (Or.inr (Or.inr (Or.inl ⟨owner, rfl, rfl, rfl, rfl⟩)))⟩
        · simp only [hb, hc] at flat
          exact ⟨_, flat.2.2, Or.inr (Or.inl ⟨rfl, rfl, e1, rfl⟩)⟩

theorem Setup_controller_failure_objects (i : InsightsIntegration) (f : Faults) (w : World)
    (hen : i.isInsightsEnabled = true)
    (hfail : (∃ e, NewInsightsReconciler i.reconcilerConfig = .error e) ∨
      ∃ e, f.complete = some e) :
    (i.Setup f w).2.objects = w.objects := by
  by_cases hctx : i.opNamespace = "" ∨ i.opName = "" ∨ i.userAgentPrefix = ""
  · exact (Setup_inert i f w hctx).2.1
  · have hns : i.opNamespace ≠ "" := fun h => hctx (Or.inl h)
    have hname : i.opName ≠ "" := fun h => hctx (Or.inr (Or.inl h))
    have hua : i.userAgentPrefix ≠ "" := fun h => hctx (Or.inr (Or.inr h))
    have flat := Setup_enabled_flat i f w hns hname hua hen
    rcases hb : NewInsightsReconciler i.reconcilerConfig with e0 | r0
    · simp only [hb] at flat
      exact flat.2.1
    · rcases hc : f.complete with _ | e1
      · rcases hfail with ⟨e, he⟩ | ⟨e, he⟩
        · rw [hb] at he
          cases he
        · rw [hc] at he
          cases he
      · simp only [hb, hc] at flat
        exact flat.2.1

/-- C14: the collaborator calls of one Setup invocation, in order, are one of: none;
the watch registration; the registration and the owner read; the registration, the
owner read and the create of the marker; the delete of the marker. So an invocation
makes at most one create or delete and never both, and at most one registration; a
create happens only with the flag enabled, after a successful registration and a
successful owner read; a delete only with the flag not enabled; and with the flag
enabled a failed construction or registration leaves the store unchanged. -/
theorem Setup_calls (i : InsightsIntegration) (f : Faults) (w : World) :
    ∃ new : List Call,
      (i.Setup f w).2.calls = w.calls ++ new ∧
      (new = [] ∨
       (new = [.complete "insights" ["Secret", "Deployment", "Service"]] ∧
        i.isInsightsEnabled = true ∧ ∃ e, f.complete = some e) ∨
       (new = [.complete "insights" ["Secret", "Deployment", "Service"],
               .get "Deployment" i.opNamespace i.opName] ∧
        i.isInsightsEnabled = true ∧ f.complete = none) ∨
       (∃ owner, new = [.complete "insights" ["Secret", "Deployment", "Service"],
                        .get "Deployment" i.opNamespace i.opName,
                        .create (i.ownedMarker owner)] ∧
        i.isInsightsEnabled = true ∧ f.complete = none ∧
        (w.Get f.get "Deployment" i.opNamespace i.opName).1 = .ok owner) ∨
       (new = [.delete { Kind := "ConfigMap", Namespace := i.opNamespace,
                         Name := "insights-proxy" }] ∧
        i.isInsightsEnabled = false)) ∧
      (new.filter Call.isCreate).length + (new.filter Call.isDelete).length ≤ 1 ∧
      (new.filter Call.isComplete).length ≤ 1 ∧
      (i.isInsightsEnabled = true →
        ((∃ e, NewInsightsReconciler i.reconcilerConfig = .error e) ∨
          ∃ e, f.complete = some e) →
        (i.Setup f w).2.objects = w.objects) := by
  obtain ⟨new, hcalls, hshape⟩ := Setup_new_calls i f w
  refine ⟨new, hcalls, hshape, ?_, ?_, Setup_controller_failure_objects i f w⟩
  · rcases hshape with h | ⟨h, _⟩ | ⟨h, _⟩ | ⟨owner, h, _⟩ | ⟨h, _⟩ <;> subst h <;>
      simp [List.filter, Call.isCreate, Call.isDelete, registerWatches,
        InsightsIntegration.readOwner]
  · rcases hshape with h | ⟨h, _⟩ | ⟨h, _⟩ | ⟨owner, h, _⟩ | ⟨h, _⟩ <;> subst h <;>
      simp [List.filter, Call.isComplete, registerWatches, InsightsIntegration.readOwner]

end Insights
